import Mathlib

/-!
Verification of the Daily Schedule Generation Engine of the baby-checklist
repository, embedded from src/lib/activities.ts (the current version of the
file: the one defining END_BY_TIME, the bath exemption and the cafe cutoff).

Modelling conventions:
* JavaScript numbers used as minute counts and durations are modelled as Int
  (they are integers everywhere in this code); scores, which receive a real
  random increment, are modelled as Rat.
* Math.floor(a / b) on integers is Int.fdiv; the JS remainder operator is
  Int.tmod (signs agree with JS on the values that occur here).
* Math.random() is externalized as an explicit stream rand : Nat -> Rat,
  one value per scoreActivity call, as the design notes of the spec demand
  for testability.
* The activity catalog (activities.json) and the stored user preferences and
  baby age (storage.ts getPreferences / getBabyAgeMonths) are inputs of the
  collaborator layer, so they are passed as explicit parameters.
* JS regular expressions are modelled by dedicated scanning functions over
  List Char that reproduce the leftmost-match, greedy-with-backtracking
  behaviour of the concrete patterns in the source.
* JS Array.prototype.sort is stable; it is modelled by a stable insertion
  sort driven by the strict version of the source comparator.
* All recursive functions are structurally recursive (on a list or on an
  explicit fuel argument computed to cover the loop range), so that every
  definition evaluates by kernel reduction.
-/

/-! ## Character and string helpers (JS primitives used by the source) -/

def isWsCh (c : Char) : Bool :=
  c == ' ' || c == '\t' || c == '\n' || c == '\r'

def digitVal (c : Char) : Nat := c.toNat - 48

def skipWs (cs : List Char) : List Char := cs.dropWhile isWsCh

def lowerChars (cs : List Char) : List Char := cs.map Char.toLower

/-- JS String.prototype.trim: drop whitespace from both ends. -/
def trimChars (cs : List Char) : List Char :=
  ((cs.dropWhile isWsCh).reverse.dropWhile isWsCh).reverse

/-- Substring containment test on char lists (used to model the keyword
regexes, whose alternatives are plain literals). -/
def hasSub (needle : List Char) : List Char → Bool
  | [] => needle.isEmpty
  | c :: rest => needle.isPrefixOf (c :: rest) || hasSub needle rest

def hasAnySub (haystack : List Char) (needles : List (List Char)) : Bool :=
  needles.any (fun n => hasSub n haystack)

/-- JS parseInt on a string: skip leading whitespace, then read leading
decimal digits; no digits means NaN (returned as none). -/
def jsParseIntDigits : List Char → Option Nat → Option Nat
  | [], acc => acc
  | c :: rest, acc =>
    if c.isDigit then
      jsParseIntDigits rest (some ((acc.getD 0) * 10 + digitVal c))
    else acc

def jsParseInt (cs : List Char) : Option Nat :=
  jsParseIntDigits (skipWs cs) none

/-- JS a || b on numbers: 0 is falsy. -/
def jsOrInt (a : Option Int) (b : Int) : Int :=
  match a with
  | some v => if v == 0 then b else v
  | none => b

/-- JS a || b on strings: the empty string is falsy. -/
def jsOrStr (a : Option String) (b : String) : String :=
  match a with
  | some s => if s.isEmpty then b else s

  | none => b

/-- Indexing with position numbering, with explicit start index.
Own definition (instead of List.enum) to keep the lemmas local. -/
def enumFrom {α : Type} (n : Nat) : List α → List (Nat × α)
  | [] => []
  | a :: l => (n, a) :: enumFrom (n + 1) l

/-- Stable insertion sort; precedes a b = true means a must come strictly
before b. An element being inserted arrived later in the original order, so
it goes after every element it does not strictly precede: this reproduces
the output of the stable JS Array.prototype.sort. -/
def stableInsert {α : Type} (precedes : α → α → Bool) (e : α) : List α → List α
  | [] => [e]
  | x :: xs => if precedes e x then e :: x :: xs else x :: stableInsert precedes e xs

def stableSort {α : Type} (precedes : α → α → Bool) (l : List α) : List α :=
  l.foldl (fun acc e => stableInsert precedes e acc) []

/-! ## Data model (src/types/index.ts) -/

inductive TimeBlock where
  | morning | midday | afternoon | evening
deriving DecidableEq, Repr

inductive AppointmentType where
  | outing | visitor | appointment | other
deriving DecidableEq, Repr

structure ParsedAppointment where
  description : String
  startTime : Option String := none
  endTime : Option String := none
  startMins : Option Int := none
  endMins : Option Int := none
  type : AppointmentType
  fulfillsTask : Option String := none
deriving DecidableEq, Repr

inductive EnergyLevel where
  | low | medium | high
deriving DecidableEq, Repr

inductive ActivityCategory where
  | sensory | motor | cognitive | social | creative
deriving DecidableEq, Repr

inductive WeatherPref where
  | good | bad | any
deriving DecidableEq, Repr

structure Activity where
  id : String
  title : String
  description : String
  duration : Int
  energyRequired : EnergyLevel
  indoor : Bool
  category : ActivityCategory
  ageMin : Int
  ageMax : Int
  weatherDependent : Option WeatherPref := none
  tags : List String
deriving DecidableEq, Repr

structure WeatherData where
  isRainy : Bool
  isGoodWeather : Bool
deriving DecidableEq, Repr

structure DailySurvey where
  date : String
  energyLevel : EnergyLevel
  stayingHome : Bool
  wantsCrafts : Bool
  activityMoods : List String
  focusAreas : List String
  freeTimeWindows : List String
  appointments : Option String := none
  parsedAppointments : Option (List ParsedAppointment) := none
deriving DecidableEq, Repr

structure UserPreferences where
  babyBirthDate : String
  babyName : String
  recurringTasks : List String
  feedingTimes : List String
  napsPerDay : Nat
  napDuration : Int
deriving DecidableEq, Repr

inductive ItemType where
  | recurring | bonus | feeding | nap
deriving DecidableEq, Repr

structure ChecklistItem where
  id : String
  task : String
  completed : Bool
  type : ItemType
  activity : Option Activity := none
  time : Option String := none
  timeBlock : TimeBlock
  suggestedTime : Option String := none
  canOverlap : Option Bool := none
  socialActivity : Option Bool := none
deriving DecidableEq, Repr

/-- An occupied interval of the day, in minutes since midnight.  The source
writes it as a record with fields start and end; the second field is named
stop here because end is a reserved word in Lean. -/
structure Slot where
  start : Int
  stop : Int
deriving DecidableEq, Repr

/-! ## Time utilities (activities.ts lines 549-605)

parseTimeToMinutes tries four regular expressions in order.  Each is
modelled by a scanner that attempts the pattern at every position from the
left and reproduces the greedy one-or-two-digit matching with backtracking.
-/

/-- Matches AM or PM case-insensitively at the head (the final group of the
first two patterns). -/
def matchMeridiemCI : List Char → Option Bool
  | c :: d :: _ =>
    if c.toLower == 'a' && d.toLower == 'm' then some false
    else if c.toLower == 'p' && d.toLower == 'm' then some true
    else none
  | _ => none

/-- Continuation of pattern 1 after the hour digits: a colon, exactly two
minute digits, optional whitespace, then AM or PM. -/
def stdAfterHour (h : Nat) : List Char → Option (Nat × Nat × Bool)
  | ':' :: a :: b :: rest =>
    if a.isDigit && b.isDigit then
      match matchMeridiemCI (skipWs rest) with
      | some pm => some (h, 10 * digitVal a + digitVal b, pm)
      | none => none
    else none
  | _ => none

/-- Attempts pattern 1 at the current position: one or two hour digits
(greedy, two first), tried through stdAfterHour. -/
def tryStdAt : List Char → Option (Nat × Nat × Bool)
  | [] => none
  | c0 :: rest0 =>
    if c0.isDigit then
      match rest0 with
      | c1 :: rest1 =>
        if c1.isDigit then
          match stdAfterHour (10 * digitVal c0 + digitVal c1) rest1 with
          | some r => some r
          | none => stdAfterHour (digitVal c0) rest0
        else stdAfterHour (digitVal c0) rest0
      | [] => stdAfterHour (digitVal c0) rest0
    else none

/-- Leftmost match of pattern 1. -/
def scanStd : List Char → Option (Nat × Nat × Bool)
  | [] => none
  | c :: rest =>
    match tryStdAt (c :: rest) with
    | some r => some r
    | none => scanStd rest

/-- Continuation of pattern 2 after the hour digits: optional whitespace
then AM or PM. -/
def simpleAfterHour (h : Nat) (rest : List Char) : Option (Nat × Bool) :=
  match matchMeridiemCI (skipWs rest) with
  | some pm => some (h, pm)
  | none => none

def trySimpleAt : List Char → Option (Nat × Bool)
  | [] => none
  | c0 :: rest0 =>
    if c0.isDigit then
      match rest0 with
      | c1 :: rest1 =>
        if c1.isDigit then
          match simpleAfterHour (10 * digitVal c0 + digitVal c1) rest1 with
          | some r => some r
          | none => simpleAfterHour (digitVal c0) rest0
        else simpleAfterHour (digitVal c0) rest0
      | [] => simpleAfterHour (digitVal c0) rest0
    else none

def scanSimple : List Char → Option (Nat × Bool)
  | [] => none
  | c :: rest =>
    match trySimpleAt (c :: rest) with
    | some r => some r
    | none => scanSimple rest

/-- The negative lookahead of pattern 3: fails when, after skipping
whitespace, the next character is A or P (case-insensitively). -/
def noAmPmAhead (cs : List Char) : Bool :=
  match skipWs cs with
  | [] => true
  | c :: _ => !(c.toLower == 'a' || c.toLower == 'p')

/-- Continuation of pattern 3 after the hour digits. -/
def h24AfterHour (h : Nat) : List Char → Option (Nat × Nat)
  | ':' :: a :: b :: rest =>
    if a.isDigit && b.isDigit then
      if noAmPmAhead rest then some (h, 10 * digitVal a + digitVal b) else none
    else none
  | _ => none

def try24At : List Char → Option (Nat × Nat)
  | [] => none
  | c0 :: rest0 =>
    if c0.isDigit then
      match rest0 with
      | c1 :: rest1 =>
        if c1.isDigit then
          match h24AfterHour (10 * digitVal c0 + digitVal c1) rest1 with
          | some r => some r
          | none => h24AfterHour (digitVal c0) rest0
        else h24AfterHour (digitVal c0) rest0
      | [] => h24AfterHour (digitVal c0) rest0
    else none

def scan24 : List Char → Option (Nat × Nat)
  | [] => none
  | c :: rest =>
    match try24At (c :: rest) with
    | some r => some r
    | none => scan24 rest

/-- The terminator group of pattern 4: whitespace, end of input, or comma. -/
def bareTerm : List Char → Bool
  | [] => true
  | c :: _ => isWsCh c || c == ','

/-- The digit part of pattern 4: one or two digits (greedy) followed by a
terminator; a failing two-digit read backtracks to one digit. -/
def tryBareDigits : List Char → Option Nat
  | [] => none
  | [c0] => if c0.isDigit then some (digitVal c0) else none
  | c0 :: c1 :: rest =>
    if c0.isDigit then
      if c1.isDigit then
        if bareTerm rest then some (10 * digitVal c0 + digitVal c1)
        else if bareTerm (c1 :: rest) then some (digitVal c0)
        else none
      else if bareTerm (c1 :: rest) then some (digitVal c0)
      else none
    else none

/-- The optional leading part of pattern 4: the word at followed by at least
one whitespace character. -/
def tryAtWord : List Char → Option (List Char)
  | a :: t :: rest =>
    if a.toLower == 'a' && t.toLower == 't' then
      match rest with
      | c :: _ => if isWsCh c then some (skipWs rest) else none
      | [] => none
    else none
  | _ => none

def tryBareAt (cs : List Char) : Option Nat :=
  match tryAtWord cs with
  | some rest =>
    match tryBareDigits rest with
    | some h => some h
    | none => tryBareDigits cs
  | none => tryBareDigits cs

def scanBare : List Char → Option Nat
  | [] => none
  | c :: rest =>
    match tryBareAt (c :: rest) with
    | some r => some r
    | none => scanBare rest

/-- activities.ts lines 549-588: parse a time string to minutes since
midnight, trying the standard 12-hour pattern, the bare-hour AM/PM pattern,
the 24-hour pattern, then a bare hour (with the 1-6 afternoon bias);
unparseable input yields 0. -/
def parseTimeToMinutes (time : String) : Int :=
  let cs := time.data
  match scanStd cs with
  | some (h, m, pm) =>
    let hours := if pm && h != 12 then h + 12 else if !pm && h == 12 then 0 else h
    ((hours * 60 + m : Nat) : Int)
  | none =>
    match scanSimple cs with
    | some (h, pm) =>
      let hours := if pm && h != 12 then h + 12 else if !pm && h == 12 then 0 else h
      ((hours * 60 : Nat) : Int)
    | none =>
      match scan24 cs with
      | some (h, m) => ((h * 60 + m : Nat) : Int)
      | none =>
        match scanBare cs with
        | some h => (((if 1 ≤ h && h ≤ 6 then h + 12 else h) * 60 : Nat) : Int)
        | none => 0

/-- JS String.prototype.padStart(2, zero). -/
def padStart2 (s : String) : String :=
  if s.length < 2 then "0" ++ s else s

/-- activities.ts lines 591-597: minutes since midnight to a 12-hour
time string. -/
def minutesToTimeString (mins : Int) : String :=
  let hours : Int := Int.fdiv mins 60
  let minutes : Int := Int.tmod mins 60
  let isPM : Bool := decide (12 ≤ hours)
  let displayHours : Int := if 12 < hours then hours - 12 else if hours == 0 then 12 else hours
  toString displayHours ++ ":" ++ padStart2 (toString minutes) ++ " " ++ (if isPM then "PM" else "AM")

/-- activities.ts lines 600-605. -/
def getTimeBlock (mins : Int) : TimeBlock :=
  if mins < 720 then .morning
  else if mins < 840 then .midday
  else if mins < 1020 then .afternoon
  else .evening

/-! ## Appointment parsing (activities.ts lines 608-677)

The splitting regex, the four keyword patterns and the two time-extraction
patterns are modelled by scanners over char lists.  All keyword alternatives
are plain literals except someone.*over, handled separately.
-/

/-- Case-insensitive literal prefix test. -/
def ciPrefix (lit : String) (cs : List Char) : Bool :=
  lowerChars (cs.take lit.length) == lit.data

/-- The suffix after the first occurrence of a literal substring. -/
def afterFirstSub (needle : List Char) : List Char → Option (List Char)
  | [] => if needle.isEmpty then some [] else none
  | c :: rest =>
    if needle.isPrefixOf (c :: rest) then some ((c :: rest).drop needle.length)
    else afterFirstSub needle rest

/-- The pattern someone.*over: an occurrence of someone followed later by
over. -/
def someoneOverPattern (t : List Char) : Bool :=
  match afterFirstSub "someone".data t with
  | some rest => hasSub "over".data rest
  | none => false

def walkPattern (t : List Char) : Bool :=
  hasAnySub t ["walk".data, "stroll".data, "park".data, "outside".data]

def visitorPattern (t : List Char) : Bool :=
  hasAnySub t ["visit".data, "friend".data, "coming over".data, "guest".data,
    "playdate".data, "play date".data] || someoneOverPattern t

def medicalPattern (t : List Char) : Bool :=
  hasAnySub t ["doctor".data, "appointment".data, "checkup".data, "check-up".data,
    "clinic".data, "hospital".data]

def errandPattern (t : List Char) : Bool :=
  hasAnySub t ["library".data, "cafe".data, "coffee".data, "lunch".data, "brunch".data,
    "shopping".data, "errand".data, "museum".data, "zoo".data]

/-- activities.ts lines 626-635: first matching keyword rule wins. -/
def classifyClause (trimmed : List Char) : AppointmentType × Option String :=
  if walkPattern trimmed then (.outing, some "Going for a walk")
  else if visitorPattern trimmed then (.visitor, none)
  else if medicalPattern trimmed then (.appointment, none)
  else if errandPattern trimmed then (.outing, none)
  else (.other, none)

/-- The tail of a time token after its hour digits: an optional colon plus
two minute digits, greedy whitespace, then an optional AM or PM; returns the
consumed characters (appended to acc) and the remaining input. -/
def tokenTail (acc : List Char) (cs : List Char) : List Char × List Char :=
  let colonPart : List Char × List Char :=
    match cs with
    | ':' :: a :: b :: rest =>
      if a.isDigit && b.isDigit then (acc ++ [':', a, b], rest) else (acc, cs)
    | _ => (acc, cs)
  let acc1 := colonPart.1
  let cs1 := colonPart.2
  let ws := cs1.takeWhile isWsCh
  let cs2 := cs1.dropWhile isWsCh
  match cs2 with
  | c :: d :: rest =>
    if (c.toLower == 'a' || c.toLower == 'p') && d.toLower == 'm' then
      (acc1 ++ ws ++ [c, d], rest)
    else (acc1 ++ ws, cs2)
  | _ => (acc1 ++ ws, cs2)

/-- A full time token at the current position (hour digits greedy, two
before one), returning the consumed characters and the rest. -/
def matchTimeToken : List Char → Option (List Char × List Char)
  | [] => none
  | c0 :: rest0 =>
    if c0.isDigit then
      match rest0 with
      | c1 :: rest1 =>
        if c1.isDigit then some (tokenTail [c0, c1] rest1)
        else some (tokenTail [c0] rest0)
      | [] => some ([c0], [])
    else none

/-- The range separator alternatives, in source order. -/
def matchSep : List Char → Option (List Char)
  | '-' :: rest => some rest
  | cs =>
    if ciPrefix "to" cs then some (cs.drop 2)
    else if ciPrefix "until" cs then some (cs.drop 5)
    else if ciPrefix "til" cs then some (cs.drop 3)
    else none

/-- After the first token of a range: whitespace, separator, whitespace,
second token; returns the second token. -/
def rangeAfterTok1 (cs : List Char) : Option (List Char) :=
  match matchSep (skipWs cs) with
  | some cs2 =>
    match matchTimeToken (skipWs cs2) with
    | some (tok2, _) => some tok2
    | none => none
  | none => none

/-- The body of the range pattern at one position: the hour of the first
token is matched greedily (two digits) and falls back to one digit when the
rest of the pattern fails, as the regex engine does. -/
def tryRangeBody : List Char → Option (List Char × List Char)
  | [] => none
  | c0 :: rest0 =>
    if c0.isDigit then
      let try2 : Option (List Char × List Char) :=
        match rest0 with
        | c1 :: rest1 =>
          if c1.isDigit then
            let t := tokenTail [c0, c1] rest1
            match rangeAfterTok1 t.2 with
            | some tok2 => some (t.1, tok2)
            | none => none
          else none
        | [] => none
      match try2 with
      | some r => some r
      | none =>
        let t := tokenTail [c0] rest0
        match rangeAfterTok1 t.2 with
        | some tok2 => some (t.1, tok2)
        | none => none
    else none

/-- The optional leading word from followed by whitespace. -/
def tryFromWord (cs : List Char) : Option (List Char) :=
  if ciPrefix "from" cs then
    let rest := cs.drop 4
    match rest with
    | c :: _ => if isWsCh c then some (skipWs rest) else none
    | [] => none
  else none

def tryRangeAt (cs : List Char) : Option (List Char × List Char) :=
  match tryFromWord cs with
  | some rest =>
    match tryRangeBody rest with
    | some r => some r
    | none => tryRangeBody cs
  | none => tryRangeBody cs

/-- Leftmost match of the range pattern; returns both captured tokens. -/
def scanRange : List Char → Option (List Char × List Char)
  | [] => none
  | c :: rest =>
    match tryRangeAt (c :: rest) with
    | some r => some r
    | none => scanRange rest

/-- The single-time pattern body: one token (no continuation). -/
def trySingleBody (cs : List Char) : Option (List Char) :=
  match matchTimeToken cs with
  | some (tok, _) => some tok
  | none => none

def trySingleAt (cs : List Char) : Option (List Char) :=
  match tryAtWord cs with
  | some rest =>
    match trySingleBody rest with
    | some tok => some tok
    | none => trySingleBody cs
  | none => trySingleBody cs

/-- Leftmost match of the single-time pattern; returns the captured token. -/
def scanSingle : List Char → Option (List Char)
  | [] => none
  | c :: rest =>
    match trySingleAt (c :: rest) with
    | some r => some r
    | none => scanSingle rest

/-- activities.ts lines 616-673: classify one clause and extract its time
interval (range first, then single time with a type-dependent assumed
duration). -/
def processClause (part : List Char) : ParsedAppointment :=
  let trimmedOrig := trimChars part
  let trimmed := lowerChars trimmedOrig
  let cls := classifyClause trimmed
  let base : ParsedAppointment :=
    { description := String.mk trimmedOrig, type := cls.1, fulfillsTask := cls.2 }
  match scanRange trimmed with
  | some (tok1, tok2) =>
    let hasAmPm := fun (t : List Char) => hasSub "am".data t || hasSub "pm".data t
    let endTok : List Char :=
      if !hasAmPm tok2 && hasSub "pm".data tok1 then tok2 ++ " PM".data
      else if !hasAmPm tok2 then
        match jsParseInt tok2 with
        | some endHour => if 1 ≤ endHour && endHour ≤ 7 then tok2 ++ " PM".data else tok2
        | none => tok2
      else tok2
    let startM := parseTimeToMinutes (String.mk tok1)
    let endM := parseTimeToMinutes (String.mk endTok)
    { base with
        startMins := some startM, endMins := some endM,
        startTime := some (minutesToTimeString startM),
        endTime := some (minutesToTimeString endM) }
  | none =>
    match scanSingle trimmed with
    | some tok =>
      let startM := parseTimeToMinutes (String.mk tok)
      let durationMins : Int := if cls.1 == .appointment then 60 else 90
      { base with
          startMins := some startM, endMins := some (startM + durationMins),
          startTime := some (minutesToTimeString startM),
          endTime := some (minutesToTimeString (startM + durationMins)) }
    | none => base

def isSplitCh (c : Char) : Bool := c == ',' || c == ';' || c == '\n'

/-- The word and surrounded by whitespace (the second splitting
alternative). -/
def matchAndSep (cs : List Char) : Option (List Char) :=
  match cs with
  | c :: _ =>
    if isWsCh c then
      let rest := skipWs cs
      if ciPrefix "and" rest then
        let rest2 := rest.drop 3
        match rest2 with
        | d :: _ => if isWsCh d then some (skipWs rest2) else none
        | [] => none
      else none
    else none
  | [] => none

/-- Splitting on commas, semicolons, newlines and the word and; fuel is the
input length (every step consumes at least one character). -/
def splitAux : Nat → List Char → List Char → List (List Char)
  | 0, _, acc => [acc.reverse]
  | _ + 1, [], acc => [acc.reverse]
  | fuel + 1, c :: rest, acc =>
    if isSplitCh c then acc.reverse :: splitAux fuel rest []
    else
      match matchAndSep (c :: rest) with
      | some rest2 => acc.reverse :: splitAux fuel rest2 []
      | none => splitAux fuel rest (c :: acc)

/-- activities.ts lines 608-677: parse free text into appointments. -/
def parseAppointments (text : String) : List ParsedAppointment :=
  if (trimChars text.data).isEmpty then []
  else
    let parts := (splitAux text.data.length text.data []).filter
      (fun p => !(trimChars p).isEmpty)
    parts.map processClause

/-! ## Activity scoring and selection (activities.ts lines 723-947)

Selected activities are represented as ScoredEntry values carrying their
position in the catalog: two distinct catalog entries are distinct JS
objects, so the position stands for JS reference identity in the
includes checks of the source.
-/

structure SelectionContext where
  survey : DailySurvey
  weather : Option WeatherData
  babyAgeMonths : Int

/-- activities.ts lines 730-794.  The r argument is the Math.random() * 20
increment of line 791, externalized. -/
def scoreActivity (activity : Activity) (context : SelectionContext) (r : ℚ) : ℚ :=
  if context.babyAgeMonths < activity.ageMin || context.babyAgeMonths > activity.ageMax then 0
  else
    let rainDisqualified :=
      match context.weather with
      | some w => !activity.indoor && w.isRainy
      | none => false
    if rainDisqualified then 0
    else
      let s1 : ℚ := 50 +
        (match context.weather with
         | some w =>
           (if !activity.indoor && !context.survey.stayingHome && w.isGoodWeather then (20 : ℚ) else 0)
             - (if activity.weatherDependent == some .good && !w.isGoodWeather then (30 : ℚ) else 0)
         | none => 0)
      if context.survey.stayingHome && !activity.indoor then 0
      else
        let s2 := s1 + (if !context.survey.stayingHome && !activity.indoor then (15 : ℚ) else 0)
        let s3 := s2 +
          (match context.survey.energyLevel with
           | .low =>
             if activity.energyRequired == .high then (-40 : ℚ)
             else if activity.energyRequired == .low then 20 else 0
           | .high => if activity.energyRequired == .high then (15 : ℚ) else 0
           | .medium => 0)
        let s4 := s3 + (if context.survey.wantsCrafts && activity.category == .creative then (30 : ℚ) else 0)
        let s5 := s4 + (if context.survey.wantsCrafts && activity.tags.contains "messy" then (10 : ℚ) else 0)
        let busyDay :=
          match context.survey.appointments with
          | some s => decide (0 < s.length)
          | none => false
        let s6 := s5 +
          (if busyDay then
            (if activity.duration ≤ 15 then (15 : ℚ)
             else if 30 ≤ activity.duration then -10 else 0)
           else 0)
        -- Math.max(0, score)
        if s6 + r < 0 then 0 else s6 + r

/-- activities.ts lines 827-831. -/
def EXCLUDED_BONUS_PATTERNS : List (List Char) :=
  ["walk".data, "stroll".data, "bath".data]

/-- activities.ts lines 834-837. -/
def overlapsWithRecurringTasks (activity : Activity) : Bool :=
  let titleAndTags := activity.title ++ " " ++ String.intercalate " " activity.tags
  EXCLUDED_BONUS_PATTERNS.any (fun p => hasSub p (lowerChars titleAndTags.data))

def cafeKeywords : List (List Char) :=
  ["cafe".data, "coffee".data, "brunch".data, "lunch".data]

/-- activities.ts lines 840-859. -/
def isCafeOrFoodActivity (activity : Activity) : Bool :=
  let titleLower := lowerChars activity.title.data
  let tagsLower := activity.tags.map (fun t => lowerChars t.data)
  if cafeKeywords.any (fun k => hasSub k titleLower) then true
  else if tagsLower.any (fun tag => cafeKeywords.any (fun k => hasSub k tag)) then true
  else if cafeKeywords.any (fun k => hasSub k (lowerChars activity.id.data)) then true
  else false

structure ScoredEntry where
  idx : Nat
  activity : Activity
  score : ℚ
deriving DecidableEq, Repr

/-- The comparator (a, b) => b.score - a.score of the source sorts, as the
strict precedence relation of a stable sort. -/
def scoreDescPrecedes (a b : ScoredEntry) : Bool := decide (b.score < a.score)

/-- The scored, recurring-overlap-filtered, positive-score candidate pool
built at the top of selectBonusActivities (lines 877-883). -/
def bonusPool (catalog : List Activity) (survey : DailySurvey) (weather : Option WeatherData)
    (babyAgeMonths : Int) (rand : Nat → ℚ) : List ScoredEntry :=
  let context : SelectionContext := ⟨survey, weather, babyAgeMonths⟩
  let filtered := (enumFrom 0 catalog).filter (fun e => !overlapsWithRecurringTasks e.2)
  ((enumFrom 0 filtered).map (fun je =>
    { idx := je.2.1, activity := je.2.2, score := scoreActivity je.2.2 context (rand je.1) : ScoredEntry })).filter
    (fun e => decide (0 < e.score))

/-- First pass of pickDiverseActivities (lines 805-812): one activity per
unseen category, in descending score order, until count is reached. -/
def pickPass1 (count : Nat) : List ScoredEntry → List ScoredEntry → List ActivityCategory →
    List ScoredEntry × List ActivityCategory
  | [], sel, used => (sel, used)
  | e :: rest, sel, used =>
    if count ≤ sel.length then (sel, used)
    else if used.contains e.activity.category then pickPass1 count rest sel used
    else pickPass1 count rest (sel ++ [e]) (used ++ [e.activity.category])

/-- Second pass (lines 815-821): fill remaining spots with the highest
scoring unselected activities. -/
def pickPass2 (count : Nat) : List ScoredEntry → List ScoredEntry → List ScoredEntry
  | [], sel => sel
  | e :: rest, sel =>
    if count ≤ sel.length then sel
    else if sel.contains e then pickPass2 count rest sel
    else pickPass2 count rest (sel ++ [e])

/-- activities.ts lines 797-824. -/
def pickDiverseActivities (scored : List ScoredEntry) (count : Nat) : List ScoredEntry :=
  let sorted := stableSort scoreDescPrecedes scored
  pickPass2 count sorted (pickPass1 count sorted [] []).1

/-- The slot time lookup scheduledTimes[i] || scheduledTimes[len - 1] || 570
(lines 907 and 931); JS indexing out of range gives undefined and 0 is
falsy. -/
def jsIdxTimes (times : List Int) (i : Nat) : Int :=
  jsOrInt (times.get? i) (jsOrInt (times.get? (times.length - 1)) 570)

/-- The inner candidate search of the per-slot loop of
pickDiverseActivitiesWithTimeConstraints (lines 909-926): the first entry
that is unselected, passes the cafe end-time constraint for this slot, and
either has an unseen category or the half-pool relaxation holds.  total is
the length of the full sorted pool (sorted.length in the source). -/
def chooseForSlot (total : Nat) (count : Nat) (slotMins : Int)
    (used : List ActivityCategory) (sel : List ScoredEntry) :
    List ScoredEntry → Option ScoredEntry
  | [] => none
  | e :: rest =>
    if sel.contains e then chooseForSlot total count slotMins used sel rest
    else if isCafeOrFoodActivity e.activity && decide (900 < slotMins + e.activity.duration) then
      chooseForSlot total count slotMins used sel rest
    else if sel.length < count then
      if !used.contains e.activity.category || decide (total ≤ 2 * sel.length) then some e
      else chooseForSlot total count slotMins used sel rest
    else chooseForSlot total count slotMins used sel rest

/-- The per-slot selection loop (lines 906-927); fuel counts the remaining
values of the loop variable i, so the loop runs while i < count and
sel.length < count. -/
def slotLoopTC (sorted : List ScoredEntry) (total : Nat) (count : Nat) (times : List Int) :
    Nat → Nat → List ScoredEntry → List ActivityCategory → List ScoredEntry × List ActivityCategory
  | 0, _, sel, used => (sel, used)
  | fuel + 1, i, sel, used =>
    if sel.length < count then
      match chooseForSlot total count (jsIdxTimes times i) used sel sorted with
      | some e => slotLoopTC sorted total count times fuel (i + 1) (sel ++ [e]) (used ++ [e.activity.category])
      | none => slotLoopTC sorted total count times fuel (i + 1) sel used
    else (sel, used)

/-- The inner search of the fill loop (lines 933-943): first unselected
entry passing the cafe constraint for this slot. -/
def fillChoose (slotMins : Int) (sel : List ScoredEntry) : List ScoredEntry → Option ScoredEntry
  | [] => none
  | e :: rest =>
    if sel.contains e then fillChoose slotMins sel rest
    else if isCafeOrFoodActivity e.activity && decide (900 < slotMins + e.activity.duration) then
      fillChoose slotMins sel rest
    else some e

/-- The fill loop (lines 930-944): i runs from the current selection length
to count, incrementing whether or not an entry was added. -/
def fillLoopTC (sorted : List ScoredEntry) (times : List Int) :
    Nat → Nat → List ScoredEntry → List ScoredEntry
  | 0, _, sel => sel
  | fuel + 1, i, sel =>
    match fillChoose (jsIdxTimes times i) sel sorted with
    | some e => fillLoopTC sorted times fuel (i + 1) (sel ++ [e])
    | none => fillLoopTC sorted times fuel (i + 1) sel

/-- activities.ts lines 894-947. -/
def pickDiverseActivitiesWithTimeConstraints (scored : List ScoredEntry) (count : Nat)
    (scheduledTimes : List Int) : List ScoredEntry :=
  let sorted := stableSort scoreDescPrecedes scored
  let p := slotLoopTC sorted sorted.length count scheduledTimes count 0 [] []
  fillLoopTC sorted scheduledTimes (count - p.1.length) p.1.length p.1

/-- activities.ts lines 862-891.  The catalog, baby age and random stream
are explicit parameters (module state and collaborator reads in the
source). -/
def selectBonusActivities (catalog : List Activity) (survey : DailySurvey)
    (weather : Option WeatherData) (babyAgeMonths : Int) (rand : Nat → ℚ)
    (count : Nat) (scheduledTimes : Option (List Int)) : List ScoredEntry :=
  let scored := bonusPool catalog survey weather babyAgeMonths rand
  match scheduledTimes with
  | some ts =>
    if 0 < ts.length then pickDiverseActivitiesWithTimeConstraints scored count ts
    else pickDiverseActivities scored count
  | none => pickDiverseActivities scored count

/-- activities.ts lines 1184-1219. -/
def getReplacementActivity (catalog : List Activity) (survey : DailySurvey)
    (weather : Option WeatherData) (babyAgeMonths : Int) (rand : Nat → ℚ)
    (excludeActivityIds : List String) (scheduledMinutes : Option Int) : Option ScoredEntry :=
  let context : SelectionContext := ⟨survey, weather, babyAgeMonths⟩
  let filtered := (((enumFrom 0 catalog).filter (fun e => !overlapsWithRecurringTasks e.2)).filter
      (fun e => !excludeActivityIds.contains e.2.id)).filter
    (fun e =>
      match scheduledMinutes with
      | some t => !(isCafeOrFoodActivity e.2 && decide (900 < t + e.2.duration))
      | none => true)
  let scored := ((enumFrom 0 filtered).map (fun je =>
    { idx := je.2.1, activity := je.2.2, score := scoreActivity je.2.2 context (rand je.1) : ScoredEntry })).filter
    (fun e => decide (0 < e.score))
  (stableSort scoreDescPrecedes scored).head?

/-! ## Time allocation (activities.ts lines 997-1043)

isSlotAvailable and findNextSlot are closures over the mutable
scheduledTimes array in the source; here the array is an explicit
argument.  The two search loops are modelled with an exact fuel: the fuel
value is the number of iterations the corresponding for loop performs.
-/

def END_BY_TIME : Int := 1110

/-- activities.ts lines 1001-1008. -/
def isSlotAvailable (scheduledTimes : List Slot) (start stop : Int) : Bool :=
  if END_BY_TIME < stop then false
  else scheduledTimes.all (fun slot => !(decide (start < slot.stop) && decide (slot.start < stop)))

/-- Iteration count of for (mins = first; mins <= limit; mins += 15). -/
def fwdFuel (first limit : Int) : Nat :=
  if limit < first then 0 else (limit - first).toNat / 15 + 1

/-- Iteration count of for (mins = first; mins >= 420; mins -= 15). -/
def backFuel (first : Int) : Nat :=
  if first < 420 then 0 else (first - 420).toNat / 15 + 1

def scanFwdAux (scheduledTimes : List Slot) (duration : Int) :
    Nat → Int → Option Int
  | 0, _ => none
  | fuel + 1, mins =>
    if isSlotAvailable scheduledTimes mins (mins + duration) then some mins
    else scanFwdAux scheduledTimes duration fuel (mins + 15)

/-- The forward search loop from first up to limit in steps of 15. -/
def scanFwd (scheduledTimes : List Slot) (duration first limit : Int) : Option Int :=
  scanFwdAux scheduledTimes duration (fwdFuel first limit) first

def scanBackAux (scheduledTimes : List Slot) (duration : Int) :
    Nat → Int → Option Int
  | 0, _ => none
  | fuel + 1, mins =>
    if isSlotAvailable scheduledTimes mins (mins + duration) then some mins
    else scanBackAux scheduledTimes duration fuel (mins - 15)

/-- The backward search loop from first down to 420 in steps of 15. -/
def scanBack (scheduledTimes : List Slot) (duration first : Int) : Option Int :=
  scanBackAux scheduledTimes duration (backFuel first) first

/-- activities.ts lines 1012-1043. -/
def findNextSlot (scheduledTimes : List Slot) (preferredMins duration : Int) : Int :=
  let backFirst :=
    if END_BY_TIME < preferredMins + duration then
      scanBack scheduledTimes duration (END_BY_TIME - duration)
    else none
  match backFirst with
  | some mins => mins
  | none =>
    if isSlotAvailable scheduledTimes preferredMins (preferredMins + duration) then preferredMins
    else
      match scanFwd scheduledTimes duration (preferredMins + 15) (END_BY_TIME - duration) with
      | some mins => mins
      | none =>
        match scanBack scheduledTimes duration (preferredMins - 15) with
        | some mins => mins
        | none => preferredMins

/-! ## Schedule assembly (activities.ts lines 950-1181)

One generation run is a sequence of atomic actions executed against a state
holding the occupied intervals (scheduledTimes) and the produced items.
Each action appends what the corresponding source step appends; the action
list itself is computed from the inputs only, as in the source (no placement
decision feeds back into which steps run).  Every produced item is paired
with bookkeeping the claims need: the interval it registered, whether it
was placed through findNextSlot, and whether that call fell through to the
no-free-slot fallback (observable as the returned slot being unavailable at
placement time).
-/

structure PlacedItem where
  item : ChecklistItem
  interval : Option Slot
  viaFinder : Bool
  fallback : Bool
  suggestedMins : Option Int
  claimDur : Int
deriving DecidableEq, Repr

inductive GAction where
  | register (iv : Slot)
  | emit (item : ChecklistItem) (interval : Option Slot) (suggestedMins : Option Int) (claimDur : Int)
  | place (preferredMins duration : Int) (build : Int → ChecklistItem)

structure GenState where
  scheduled : List Slot
  trace : List PlacedItem

def stepAction (st : GenState) : GAction → GenState
  | .register iv => { st with scheduled := st.scheduled ++ [iv] }
  | .emit item iv sm d =>
    let pi : PlacedItem :=
      { item := item, interval := iv, viaFinder := false, fallback := false,
        suggestedMins := sm, claimDur := d }
    { scheduled := st.scheduled ++ (match iv with | some s => [s] | none => []),
      trace := st.trace ++ [pi] }
  | .place p d build =>
    let mins := findNextSlot st.scheduled p d
    let ok := isSlotAvailable st.scheduled mins (mins + d)
    let pi : PlacedItem :=
      { item := build mins, interval := some ⟨mins, mins + d⟩,
        viaFinder := true, fallback := !ok, suggestedMins := some mins, claimDur := d }
    { scheduled := st.scheduled ++ [⟨mins, mins + d⟩], trace := st.trace ++ [pi] }

def runActions : GenState → List GAction → GenState := List.foldl stepAction

/-- Lines 958: survey.parsedAppointments || parseAppointments(survey.appointments || ''). -/
def appointmentsOf (survey : DailySurvey) : List ParsedAppointment :=
  match survey.parsedAppointments with
  | some l => l
  | none => parseAppointments (jsOrStr survey.appointments "")

/-- Lines 971-988: feeds are seeded at their parsed times as fixed
30-minute anchors. -/
def feedActions (preferences : UserPreferences) : List GAction :=
  (enumFrom 0 preferences.feedingTimes).map (fun it =>
    let mins := parseTimeToMinutes it.2
    GAction.emit
      { id := "feeding-" ++ toString it.1, task := "Feed baby", completed := false,
        type := .feeding, time := some (minutesToTimeString mins),
        timeBlock := getTimeBlock mins,
        suggestedTime := some (minutesToTimeString mins) }
      (some ⟨mins, mins + 30⟩) (some mins) 30)

/-- Lines 990-995: every appointment with both minute fields registers its
interval. -/
def appointmentActions (appointments : List ParsedAppointment) : List GAction :=
  appointments.filterMap (fun apt =>
    match apt.startMins, apt.endMins with
    | some s, some e => some (GAction.register ⟨s, e⟩)
    | _, _ => none)

def napTimes : List String := ["10:00 AM", "2:30 PM"]

/-- Lines 1045-1063. -/
def napActions (preferences : UserPreferences) : List GAction :=
  (List.range preferences.napsPerDay).map (fun i =>
    let napTime := jsOrStr (napTimes.get? i) (napTimes.getD (napTimes.length - 1) "")
    let preferredMins := parseTimeToMinutes napTime
    let duration := jsOrInt (some preferences.napDuration) 30
    GAction.place preferredMins duration (fun mins =>
      { id := "nap-" ++ toString i,
        task := "Nap " ++ toString (i + 1) ++ " (~" ++ toString duration ++ "min)",
        completed := false, type := .nap, timeBlock := getTimeBlock mins,
        suggestedTime := some (minutesToTimeString mins) }))

structure RecurringSlot where
  time : String
  duration : Int
  social : Option Bool := none
  exclusive : Option Bool := none
  exemptFromEndTime : Bool := false
deriving DecidableEq, Repr

/-- Lines 1067-1075, in insertion order. -/
def recurringTimeSlotEntries : List (String × RecurringSlot) :=
  [("Read 5 books", { time := "9:00 AM", duration := 20, social := some true, exclusive := some false }),
   ("Eating solids", { time := "12:30 PM", duration := 30, social := some false, exclusive := some true }),
   ("Going for a walk", { time := "3:30 PM", duration := 45, social := some true, exclusive := some true }),
   ("Having a bath",
     { time := "6:00 PM", duration := 30, social := some false, exclusive := some true,
       exemptFromEndTime := true }),
   ("Vestibular play", { time := "11:00 AM", duration := 15, social := some true, exclusive := some false }),
   ("Crawling/walking practice", { time := "2:30 PM", duration := 20, social := some true, exclusive := some false }),
   ("Music time", { time := "4:30 PM", duration := 15, social := some true, exclusive := some false })]

def recurringSlotFor (task : String) : Option RecurringSlot :=
  (recurringTimeSlotEntries.find? (fun e => e.1 == task)).map (fun e => e.2)

/-- Lines 1078-1080: the socially flagged recurring tasks, table order. -/
def visitorFriendlyTasks : List String :=
  (recurringTimeSlotEntries.filter (fun e => e.2.social == some true)).map (fun e => e.1)

/-- Replacement for the regex walk.*with\s* (applied once, greedy, case
insensitive) in the fulfilled-task label of line 1092. -/
def replaceWalkWith (cs : List Char) : List Char :=
  let withStarts := ((enumFrom 0 cs.tails).filter (fun t => ciPrefix "with" t.2)).map (fun t => t.1)
  let walkStarts := ((enumFrom 0 cs.tails).filter (fun t => ciPrefix "walk" t.2)).map (fun t => t.1)
  match walkStarts.find? (fun p => withStarts.any (fun q => p + 4 ≤ q)) with
  | some p =>
    match (withStarts.filter (fun q => p + 4 ≤ q)).getLast? with
    | some q => cs.take p ++ skipWs (cs.drop (q + 4))
    | none => cs
  | none => cs

/-- Replacement for the regex at\s*\d.* (applied once, case insensitive) in
the fulfilled-task label of line 1092. -/
def replaceAtDigit (cs : List Char) : List Char :=
  let ps := ((enumFrom 0 cs.tails).filter (fun t =>
    ciPrefix "at" t.2 &&
      (match skipWs (t.2.drop 2) with
       | c :: _ => c.isDigit
       | [] => false))).map (fun t => t.1)
  match ps.head? with
  | some p => cs.take p
  | none => cs

/-- The companion label of line 1092: strip the walk phrase and the time
tail from the appointment description, defaulting to friend. -/
def fulfilledCompanion (description : String) : String :=
  let r := trimChars (replaceAtDigit (replaceWalkWith description.data))
  if r.isEmpty then "friend" else String.mk r

/-- Lines 1083-1142: the action compiled for one configured recurring
task, given the parsed appointments of the run. -/
def fulfilledActionFor (appointments : List ParsedAppointment) (index : Nat) (task : String)
    (defaultSlot : RecurringSlot) : Option GAction :=
  if (appointments.filterMap (fun a => a.fulfillsTask)).contains task then
    match appointments.find? (fun a => a.fulfillsTask == some task) with
    | some apt =>
      match apt.startMins with
      | some s =>
        some (GAction.emit
          { id := "recurring-" ++ toString index,
            task := task ++ " (with " ++ fulfilledCompanion apt.description ++ ")",
            completed := false, type := .recurring,
            timeBlock := getTimeBlock s, suggestedTime := apt.startTime }
          none apt.startMins defaultSlot.duration)
      | none => none
    | none => none
  else none

def recurringActionFor (appointments : List ParsedAppointment) (it : Nat × String) :
    GAction :=
  let visitorApt := appointments.find? (fun a => a.type == .visitor)
  let index := it.1
  let task := it.2
  let defaultSlot := (recurringSlotFor task).getD { time := "9:00 AM", duration := 20 }
  match fulfilledActionFor appointments index task defaultSlot with
  | some act => act
  | none =>
    let basePreferred := parseTimeToMinutes defaultSlot.time
    let preferredMins :=
      match visitorApt with
      | some vApt =>
        match vApt.startMins, vApt.endMins with
        | some vs, some ve =>
          if visitorFriendlyTasks.contains task then
            vs + Int.fdiv ((ve - vs) * ((visitorFriendlyTasks.indexOf task : Nat) + 1))
              ((visitorFriendlyTasks.length : Int) + 1)
          else basePreferred
        | _, _ => basePreferred
      | none => basePreferred
    if defaultSlot.exemptFromEndTime then
      -- Lines 1114-1130: the bath branch keeps the preferred time whether
      -- or not it conflicts, and still registers its interval.
      GAction.emit
        { id := "recurring-" ++ toString index, task := task, completed := false,
          type := .recurring, timeBlock := getTimeBlock preferredMins,
          suggestedTime := some (minutesToTimeString preferredMins),
          canOverlap := some (!(defaultSlot.exclusive.getD false)),
          socialActivity := defaultSlot.social }
        (some ⟨preferredMins, preferredMins + defaultSlot.duration⟩)
        (some preferredMins) defaultSlot.duration
    else
      GAction.place preferredMins defaultSlot.duration (fun mins =>
        { id := "recurring-" ++ toString index, task := task, completed := false,
          type := .recurring, timeBlock := getTimeBlock mins,
          suggestedTime := some (minutesToTimeString mins),
          canOverlap := some (!(defaultSlot.exclusive.getD false)),
          socialActivity := defaultSlot.social })

/-- Lines 1083-1142: one action per configured recurring task. -/
def recurringActions (preferences : UserPreferences) (appointments : List ParsedAppointment) :
    List GAction :=
  (enumFrom 0 preferences.recurringTasks).map (recurringActionFor appointments)

def bonusDefaultTimes : List Int := [570, 810, 930]

/-- Lines 1144-1171: three bonus activities, visitor retargeting, then
placement through the finder. -/
def bonusActions (catalog : List Activity) (survey : DailySurvey) (weather : Option WeatherData)
    (babyAgeMonths : Int) (rand : Nat → ℚ) (appointments : List ParsedAppointment) :
    List GAction :=
  let visitorApt := appointments.find? (fun a => a.type == .visitor)
  let bonusActivities := selectBonusActivities catalog survey weather babyAgeMonths rand 3 none
  (enumFrom 0 bonusActivities).map (fun it =>
    let index := it.1
    let activity := it.2.activity
    let basePreferred := jsOrInt (bonusDefaultTimes.get? index) (bonusDefaultTimes.getD 0 0)
    let preferredMins :=
      match visitorApt with
      | some vApt =>
        match vApt.startMins, vApt.endMins with
        | some vs, some ve =>
          if activity.indoor && (activity.category == .sensory || activity.category == .social
              || activity.category == .creative) then
            vs + Int.fdiv ((ve - vs) * ((index : Int) + 1)) 4
          else basePreferred
        | _, _ => basePreferred
      | none => basePreferred
    GAction.place preferredMins activity.duration (fun mins =>
      { id := "bonus-" ++ toString index,
        task := activity.title ++ " (" ++ toString activity.duration ++ "min)",
        completed := false, type := .bonus, activity := some activity,
        timeBlock := getTimeBlock mins, suggestedTime := some (minutesToTimeString mins) }))

/-- The full action sequence of one generateChecklist run, in source
order: feeds, appointment registrations, naps, recurring tasks, bonus
activities. -/
def generateActions (preferences : UserPreferences) (survey : DailySurvey)
    (weather : Option WeatherData) (catalog : List Activity) (babyAgeMonths : Int)
    (rand : Nat → ℚ) : List GAction :=
  let appointments := appointmentsOf survey
  feedActions preferences ++ appointmentActions appointments ++ napActions preferences
    ++ recurringActions preferences appointments
    ++ bonusActions catalog survey weather babyAgeMonths rand appointments

/-- The final generation state: occupied intervals and produced items with
their placement bookkeeping, in production order. -/
def generateChecklistTrace (preferences : UserPreferences) (survey : DailySurvey)
    (weather : Option WeatherData) (catalog : List Activity) (babyAgeMonths : Int)
    (rand : Nat → ℚ) : GenState :=
  runActions ⟨[], []⟩ (generateActions preferences survey weather catalog babyAgeMonths rand)

/-- The sort key of lines 1174-1178. -/
def itemSortKey (item : ChecklistItem) : Int :=
  match item.suggestedTime with
  | some s => parseTimeToMinutes s
  | none => 0

/-- activities.ts lines 950-1181: the produced items sorted by suggested
time (stable, as the JS sort). -/
def generateChecklist (preferences : UserPreferences) (survey : DailySurvey)
    (weather : Option WeatherData) (catalog : List Activity) (babyAgeMonths : Int)
    (rand : Nat → ℚ) : List ChecklistItem :=
  let st := generateChecklistTrace preferences survey weather catalog babyAgeMonths rand
  stableSort (fun a b => decide (itemSortKey a < itemSortKey b)) (st.trace.map (fun e => e.item))

/-! ## Reference definitions and claim statements

The remaining definitions state the claims: a spec-side description of the
slot search order (C4), the canonical time-string form (C9), the overlap
and boundary predicates the claims quantify over, and concrete inputs used
by counterexamples and witnesses.
-/

def freeStart (scheduledTimes : List Slot) (duration mins : Int) : Bool :=
  isSlotAvailable scheduledTimes mins (mins + duration)

/-- The arithmetic candidate sequence first, first - 15, ... down to 420. -/
def backCandidates (first : Int) : List Int :=
  (List.range (backFuel first)).map (fun (k : Nat) => first - 15 * (k : Int))

/-- The arithmetic candidate sequence first, first + 15, ... up to limit. -/
def fwdCandidates (first limit : Int) : List Int :=
  (List.range (fwdFuel first limit)).map (fun (k : Nat) => first + 15 * (k : Int))

/-- Written from the wording of claim C4 (spec section 4.4): if
preferredStart + duration exceeds 1110, scan backward from 1110 - duration
in 15-minute steps down to 420 and return the first free start; otherwise
return preferredStart if free; otherwise scan forward from
preferredStart + 15 up to 1110 - duration; otherwise scan backward from
preferredStart - 15 down to 420; if no free start was found, return
preferredStart unchanged. -/
def findNextSlotSpec (scheduledTimes : List Slot) (preferredStart duration : Int) : Int :=
  let free := freeStart scheduledTimes duration
  let boundaryBack := (backCandidates (1110 - duration)).find? free
  let tryPreferred : Option Int := if free preferredStart then some preferredStart else none
  let forward := (fwdCandidates (preferredStart + 15) (1110 - duration)).find? free
  let backward := (backCandidates (preferredStart - 15)).find? free
  if 1110 < preferredStart + duration then
    (((boundaryBack.orElse fun _ => tryPreferred).orElse fun _ => forward).orElse
      fun _ => backward).getD preferredStart
  else
    (((tryPreferred.orElse fun _ => forward).orElse fun _ => backward)).getD preferredStart

/-- A canonical time string H:MM AM/PM: hour 1-12 without a leading zero,
minutes zero-padded to two digits (claim C9). -/
def canonicalTimeString (h m : Nat) (pm : Bool) : String :=
  String.mk ((if h < 10 then [Nat.digitChar h] else ['1', Nat.digitChar (h - 10)])
    ++ [':', Nat.digitChar (m / 10), Nat.digitChar (m % 10), ' ']
    ++ (if pm then ['P', 'M'] else ['A', 'M']))

/-- Non-overlappable in the sense of the spec: canOverlap absent or false. -/
def nonOverlappableB (e : PlacedItem) : Bool :=
  e.item.canOverlap == none || e.item.canOverlap == some false

/-- The interval the claims ascribe to an output item: its suggested start
plus its scheduled duration (30 for feeds, the nap duration for naps, the
recurring table duration for recurring tasks, the activity duration for
bonus items), tested with start < other.end && end > other.start. -/
def clashB (e1 e2 : PlacedItem) : Bool :=
  match e1.suggestedMins, e2.suggestedMins with
  | some m1, some m2 =>
    decide (m1 < m2 + e2.claimDur) && decide (m2 < m1 + e1.claimDur)
  | _, _ => false

/-- Claim C1 as stated: no two distinct non-overlappable, non-bath,
non-fallback output items of a run have clashing intervals. -/
def C1Claim (preferences : UserPreferences) (survey : DailySurvey)
    (weather : Option WeatherData) (catalog : List Activity) (babyAgeMonths : Int)
    (rand : Nat → ℚ) : Prop :=
  ∀ e1 ∈ (generateChecklistTrace preferences survey weather catalog babyAgeMonths rand).trace,
    ∀ e2 ∈ (generateChecklistTrace preferences survey weather catalog babyAgeMonths rand).trace,
      e1 ≠ e2 →
      nonOverlappableB e1 = true → nonOverlappableB e2 = true →
      e1.item.task ≠ "Having a bath" → e2.item.task ≠ "Having a bath" →
      e1.fallback = false → e2.fallback = false →
      clashB e1 e2 = false

/-- suggestedStart + duration stays within the 5:30 PM boundary. -/
def withinBoundary (e : PlacedItem) : Bool :=
  match e.suggestedMins with
  | some m => decide (m + e.claimDur ≤ 1110)
  | none => true

/-- Claim C2 as stated: every placed item other than the bath task ends by
5:30 PM. -/
def C2Claim (preferences : UserPreferences) (survey : DailySurvey)
    (weather : Option WeatherData) (catalog : List Activity) (babyAgeMonths : Int)
    (rand : Nat → ℚ) : Prop :=
  ∀ e ∈ (generateChecklistTrace preferences survey weather catalog babyAgeMonths rand).trace,
    e.item.task ≠ "Having a bath" → withinBoundary e = true

/-- Claim C3 as stated: every interval registered into scheduledTimes has
end > start. -/
def C3Claim (preferences : UserPreferences) (survey : DailySurvey)
    (weather : Option WeatherData) (catalog : List Activity) (babyAgeMonths : Int)
    (rand : Nat → ℚ) : Prop :=
  ∀ iv ∈ (generateChecklistTrace preferences survey weather catalog babyAgeMonths rand).scheduled,
    iv.start < iv.stop

/-- Claim C8 as stated: an under-filled selection implies an under-sized
candidate pool. -/
def C8Claim (catalog : List Activity) (survey : DailySurvey) (weather : Option WeatherData)
    (babyAgeMonths : Int) (rand : Nat → ℚ) (count : Nat)
    (scheduledTimes : Option (List Int)) : Prop :=
  (selectBonusActivities catalog survey weather babyAgeMonths rand count scheduledTimes).length < count →
  (bonusPool catalog survey weather babyAgeMonths rand).length < count

/-- An item placed through findNextSlot whose returned slot was actually
available, i.e. not the no-free-slot fallback. -/
def goodFinder (e : PlacedItem) : Bool := e.viaFinder && !e.fallback

/-- The registered occupied intervals of the two items do not overlap. -/
def regIntervalsDisjoint (e1 e2 : PlacedItem) : Prop :=
  ∀ iv1 iv2, e1.interval = some iv1 → e2.interval = some iv2 →
    ¬ (iv1.start < iv2.stop ∧ iv2.start < iv1.stop)

/-- Run invariant: every non-fallback finder placement has its interval of
shape [m, m + duration), registered in the occupied set, within the
boundary; and such placements are pairwise disjoint. -/
def finderInv (st : GenState) : Prop :=
  (∀ e ∈ st.trace, goodFinder e = true →
    ∃ m, e.suggestedMins = some m ∧ e.interval = some ⟨m, m + e.claimDur⟩ ∧
      (⟨m, m + e.claimDur⟩ : Slot) ∈ st.scheduled ∧ m + e.claimDur ≤ END_BY_TIME) ∧
  (st.trace.filter goodFinder).Pairwise regIntervalsDisjoint

/-- Positivity precondition on a single action: emitted intervals and
finder durations are positive (registered appointment intervals are
exempt, as the corrected claim C3 states). -/
def posAction : GAction → Prop
  | .register _ => True
  | .emit _ iv _ _ =>
    match iv with
    | some s => s.start < s.stop
    | none => True
  | .place _ d _ => 0 < d

/-- All trace intervals are positive. -/
def tracePositive (st : GenState) : Prop :=
  ∀ e ∈ st.trace, ∀ iv, e.interval = some iv → iv.start < iv.stop

/-! Concrete inputs for counterexamples and witnesses. -/

def rand0 : Nat → ℚ := fun _ => 0

def surveyEmpty : DailySurvey :=
  { date := "", energyLevel := .medium, stayingHome := false, wantsCrafts := false,
    activityMoods := [], focusAreas := [], freeTimeWindows := [] }

/-- Survey whose free text registers the inverted interval [1080, 600). -/
def surveyVisitSixToTen : DailySurvey :=
  { date := "", energyLevel := .medium, stayingHome := false, wantsCrafts := false,
    activityMoods := [], focusAreas := [], freeTimeWindows := [],
    appointments := some "visit 6-10" }

/-- Two feeds 15 minutes apart: their 30-minute anchors overlap. -/
def prefsOverlappingFeeds : UserPreferences :=
  { babyBirthDate := "", babyName := "", recurringTasks := [],
    feedingTimes := ["8:00 AM", "8:15 AM"], napsPerDay := 0, napDuration := 30 }

/-- A single feed past the 5:30 PM boundary. -/
def prefsLateFeed : UserPreferences :=
  { babyBirthDate := "", babyName := "", recurringTasks := [],
    feedingTimes := ["7:00 PM"], napsPerDay := 0, napDuration := 30 }

def prefsNoTasks : UserPreferences :=
  { babyBirthDate := "", babyName := "", recurringTasks := [],
    feedingTimes := [], napsPerDay := 0, napDuration := 30 }

/-- One nap and nothing else: its placement goes through the finder. -/
def prefsNapOnly : UserPreferences :=
  { babyBirthDate := "", babyName := "", recurringTasks := [],
    feedingTimes := [], napsPerDay := 1, napDuration := 30 }

/-- Bath plus another recurring task, feeds and a nap. -/
def prefsBath : UserPreferences :=
  { babyBirthDate := "", babyName := "", recurringTasks := ["Having a bath", "Read 5 books"],
    feedingTimes := ["8:00 AM", "12:00 PM"], napsPerDay := 1, napDuration := 30 }

/-- The trace entry produced for the nap of prefsNapOnly. -/
def napWitnessEntry : PlacedItem :=
  { item := { id := "nap-0", task := "Nap 1 (~30min)", completed := false, type := .nap,
              timeBlock := .morning, suggestedTime := some "10:00 AM" },
    interval := some ⟨600, 630⟩, viaFinder := true, fallback := false,
    suggestedMins := some 600, claimDur := 30 }

/-- A food-venue activity of duration 60 (claim C7 edge and claim C8
counterexample). -/
def cafeActivity60 : Activity :=
  { id := "cafe-trip", title := "Cafe trip", description := "", duration := 60,
    energyRequired := .low, indoor := true, category := .social,
    ageMin := 0, ageMax := 24, tags := [] }

def cafeEntry60 : ScoredEntry :=
  { idx := 0, activity := cafeActivity60, score := 50 }

/-! ## Theorems -/

/-- C6: parseAppointments applied to the text Friend coming over 2-4pm,
doctor appointment at 10am returns exactly two appointments: a visitor
over [840, 960) (2:00-4:00 PM) and an appointment over [600, 660)
(10:00-11:00 AM, the 60-minute default span for appointment clauses with a
single time). -/
theorem c6_parse_scenario :
    parseAppointments "Friend coming over 2-4pm, doctor appointment at 10am" =
      [{ description := "Friend coming over 2-4pm", startTime := some "2:00 PM",
         endTime := some "4:00 PM", startMins := some 840, endMins := some 960,
         type := .visitor },
       { description := "doctor appointment at 10am", startTime := some "10:00 AM",
         endTime := some "11:00 AM", startMins := some 600, endMins := some 660,
         type := .appointment }] := by
  decide

/-- C1 counterexample: with feeding times 8:00 AM and 8:15 AM, the two feed
items (non-overlappable, not the bath task, not fallback-placed) occupy
[480, 510) and [495, 525), which overlap, so the no-overlap claim as stated
is false: feeds are seeded verbatim and never checked against each
other. -/
theorem c1_counterexample :
    ¬ C1Claim prefsOverlappingFeeds surveyEmpty none [] 6 rand0 := by
  unfold C1Claim
  decide

/-- C2 counterexample: a feed at 7:00 PM is emitted with suggested start
1140 and duration 30, and 1140 + 30 = 1170 > 1110, so the boundary claim as
stated fails for feed items (the spec itself notes feeds are seeded even
past the boundary). -/
theorem c2_counterexample :
    ¬ C2Claim prefsLateFeed surveyEmpty none [] 6 rand0 := by
  unfold C2Claim
  decide

/-- C3 counterexample: the appointment text visit 6-10 parses to start 1080
(6 biased to PM) and end 600 (10 read as 10 AM), and generateChecklist
registers the interval [1080, 600) with end < start into scheduledTimes. -/
theorem c3_counterexample :
    ¬ C3Claim prefsNoTasks surveyVisitSixToTen none [] 6 rand0 := by
  unfold C3Claim
  decide

/-- C8 counterexample: with a candidate pool of exactly one food-venue
activity (duration 60, score 50 > 0) and the single slot time 870, the
time-constrained selection returns no activity although the pool size
equals count = 1: the cafe end-time filter, not pool exhaustion, caused the
shortfall. -/
theorem c8_counterexample :
    ¬ C8Claim [cafeActivity60] surveyEmpty none 6 rand0 1 (some [870]) := by
  unfold C8Claim
  with_unfolding_all decide

set_option maxRecDepth 10000 in
/-- C9: for every canonical time string H:MM AM/PM (hour 1-12 with no
leading zero, minutes zero-padded), parsing with parseTimeToMinutes and
printing with minutesToTimeString reproduces the string exactly. -/
theorem c9_roundtrip (h m : Nat) (pm : Bool) (h1 : 1 ≤ h) (h2 : h ≤ 12) (h3 : m ≤ 59) :
    minutesToTimeString (parseTimeToMinutes (canonicalTimeString h m pm)) =
      canonicalTimeString h m pm := by
  have key : ∀ x ∈ List.range 13, 1 ≤ x → ∀ y ∈ List.range 60, ∀ b ∈ [true, false],
      minutesToTimeString (parseTimeToMinutes (canonicalTimeString x y b)) =
        canonicalTimeString x y b := by
    decide
  exact key h (List.mem_range.mpr (by omega)) h1 m (List.mem_range.mpr (by omega)) pm
    (by cases pm <;> simp)

/-- C9 witness: the round trip at the concrete canonical string 8:05 AM. -/
theorem c9_roundtrip_witness :
    (1 ≤ 8 ∧ 8 ≤ 12 ∧ 5 ≤ 59) ∧
    minutesToTimeString (parseTimeToMinutes (canonicalTimeString 8 5 false)) =
      canonicalTimeString 8 5 false :=
  ⟨by decide, c9_roundtrip 8 5 false (by decide) (by decide) (by decide)⟩

/-- freeStart is the availability test of the scan loops. -/
theorem freeStart_eq (sched : List Slot) (d m : Int) :
    isSlotAvailable sched m (m + d) = freeStart sched d m := rfl

/-- The backward scan loop returns the first free start of the arithmetic
candidate sequence. -/
theorem scanBackAux_eq_find (sched : List Slot) (d : Int) :
    ∀ (n : Nat) (first : Int),
      scanBackAux sched d n first =
        ((List.range n).map (fun (k : Nat) => first - 15 * (k : Int))).find? (freeStart sched d) := by
  intro n
  induction n with
  | zero => intro first; rfl
  | succ n ih =>
    intro first
    rw [List.range_succ_eq_map]
    simp only [List.map_cons, List.map_map]
    have hfun : ((fun (k : Nat) => first - 15 * (k : Int)) ∘ Nat.succ) =
        (fun (k : Nat) => (first - 15) - 15 * (k : Int)) := by
      funext k
      simp only [Function.comp]
      push_cast
      ring
    rw [hfun]
    show (if isSlotAvailable sched first (first + d) then some first
          else scanBackAux sched d n (first - 15)) = _
    rw [freeStart_eq, List.find?_cons]
    simp only [Nat.cast_zero, mul_zero, sub_zero]
    cases h : freeStart sched d first with
    | true => simp only [h, if_true]
    | false =>
      simp only [h, Bool.false_eq_true, if_false]
      exact ih (first - 15)

/-- The forward scan loop returns the first free start of the arithmetic
candidate sequence. -/
theorem scanFwdAux_eq_find (sched : List Slot) (d : Int) :
    ∀ (n : Nat) (first : Int),
      scanFwdAux sched d n first =
        ((List.range n).map (fun (k : Nat) => first + 15 * (k : Int))).find? (freeStart sched d) := by
  intro n
  induction n with
  | zero => intro first; rfl
  | succ n ih =>
    intro first
    rw [List.range_succ_eq_map]
    simp only [List.map_cons, List.map_map]
    have hfun : ((fun (k : Nat) => first + 15 * (k : Int)) ∘ Nat.succ) =
        (fun (k : Nat) => (first + 15) + 15 * (k : Int)) := by
      funext k
      simp only [Function.comp]
      push_cast
      ring
    rw [hfun]
    show (if isSlotAvailable sched first (first + d) then some first
          else scanFwdAux sched d n (first + 15)) = _
    rw [freeStart_eq, List.find?_cons]
    simp only [Nat.cast_zero, mul_zero, add_zero]
    cases h : freeStart sched d first with
    | true => simp only [h, if_true]
    | false =>
      simp only [h, Bool.false_eq_true, if_false]
      exact ih (first + 15)

theorem scanBack_eq_find (sched : List Slot) (d first : Int) :
    scanBack sched d first = (backCandidates first).find? (freeStart sched d) :=
  scanBackAux_eq_find sched d (backFuel first) first

theorem scanFwd_eq_find (sched : List Slot) (d first limit : Int) :
    scanFwd sched d first limit = (fwdCandidates first limit).find? (freeStart sched d) :=
  scanFwdAux_eq_find sched d (fwdFuel first limit) first

/-- C4: findNextSlot follows exactly the claimed search order: when
preferredStart + duration exceeds 1110 it first scans backward from
1110 - duration down to 420 in 15-minute steps; then it tries
preferredStart itself; then it scans forward from preferredStart + 15 up to
1110 - duration; then backward from preferredStart - 15 down to 420; and if
no free start exists it returns preferredStart unchanged. -/
theorem c4_findNextSlot_order (scheduledTimes : List Slot) (preferredStart duration : Int) :
    findNextSlot scheduledTimes preferredStart duration =
      findNextSlotSpec scheduledTimes preferredStart duration := by
  unfold findNextSlot findNextSlotSpec END_BY_TIME
  rw [scanBack_eq_find, scanFwd_eq_find, scanBack_eq_find, freeStart_eq]
  by_cases hov : (1110 : Int) < preferredStart + duration
  · simp only [hov, if_true]
    cases hb : (backCandidates (1110 - duration)).find? (freeStart scheduledTimes duration) with
    | some x => simp [Option.orElse, Option.getD]
    | none =>
      simp only [Option.orElse, Option.getD]
      cases hp : freeStart scheduledTimes duration preferredStart with
      | true => simp [hp]
      | false =>
        simp only [hp, Bool.false_eq_true, if_false]
        cases hf : (fwdCandidates (preferredStart + 15) (1110 - duration)).find?
            (freeStart scheduledTimes duration) with
        | some y => simp
        | none =>
          cases hk : (backCandidates (preferredStart - 15)).find?
              (freeStart scheduledTimes duration) with
          | some z => simp
          | none => simp
  · simp only [hov, if_false]
    simp only [Option.orElse, Option.getD]
    cases hp : freeStart scheduledTimes duration preferredStart with
    | true => simp [hp]
    | false =>
      simp only [hp, Bool.false_eq_true, if_false]
      cases hf : (fwdCandidates (preferredStart + 15) (1110 - duration)).find?
          (freeStart scheduledTimes duration) with
      | some y => simp
      | none =>
        cases hk : (backCandidates (preferredStart - 15)).find?
            (freeStart scheduledTimes duration) with
        | some z => simp
        | none => simp

/-- Inserting stably is a permutation of pushing in front. -/
theorem stableInsert_perm {α : Type} (p : α → α → Bool) (e : α) :
    ∀ l : List α, (stableInsert p e l).Perm (e :: l) := by
  intro l
  induction l with
  | nil => exact List.Perm.refl _
  | cons x xs ih =>
    unfold stableInsert
    cases h : p e x with
    | true =>
      simp only [if_true]
      exact List.Perm.refl _
    | false =>
      simp only [Bool.false_eq_true, if_false]
      exact ((ih.cons x).trans (List.Perm.swap e x xs))

theorem stableSort_foldl_perm {α : Type} (p : α → α → Bool) :
    ∀ (l acc : List α), (l.foldl (fun acc e => stableInsert p e acc) acc).Perm (acc ++ l) := by
  intro l
  induction l with
  | nil => intro acc; simp
  | cons e l ih =>
    intro acc
    have h1 := ih (stableInsert p e acc)
    have h2 : (stableInsert p e acc ++ l).Perm (acc ++ e :: l) :=
      ((stableInsert_perm p e acc).append_right l).trans List.perm_middle.symm
    exact h1.trans h2

/-- The stable sort permutes its input. -/
theorem stableSort_perm {α : Type} (p : α → α → Bool) (l : List α) :
    (stableSort p l).Perm l := by
  have := stableSort_foldl_perm p l []
  simpa [stableSort] using this

theorem mem_stableSort {α : Type} {p : α → α → Bool} {l : List α} {e : α}
    (h : e ∈ stableSort p l) : e ∈ l :=
  (stableSort_perm p l).mem_iff.mp h

theorem enumFrom_mem {α : Type} :
    ∀ (n : Nat) (l : List α) (x : Nat × α), x ∈ enumFrom n l → x.2 ∈ l := by
  intro n l
  induction l generalizing n with
  | nil => intro x hx; cases hx
  | cons a l ih =>
    intro x hx
    rcases hx with _ | ⟨_, hx⟩
    · exact List.mem_cons_self _ _
    · exact List.mem_cons_of_mem _ (ih (n + 1) _ hx)

theorem enumFrom_fst_le {α : Type} :
    ∀ (n : Nat) (l : List α) (x : Nat × α), x ∈ enumFrom n l → n ≤ x.1 := by
  intro n l
  induction l generalizing n with
  | nil => intro x hx; cases hx
  | cons a l ih =>
    intro x hx
    rcases hx with _ | ⟨_, hx⟩
    · exact Nat.le_refl _
    · exact Nat.le_of_succ_le (ih (n + 1) _ hx)

theorem enumFrom_pairwise_fst {α : Type} :
    ∀ (n : Nat) (l : List α), (enumFrom n l).Pairwise (fun x y => x.1 < y.1) := by
  intro n l
  induction l generalizing n with
  | nil => exact List.Pairwise.nil
  | cons a l ih =>
    refine List.Pairwise.cons ?_ (ih (n + 1))
    intro y hy
    exact Nat.lt_of_succ_le (enumFrom_fst_le (n + 1) l y hy)

theorem enumFrom_pairwise_snd {α : Type} {R : α → α → Prop} :
    ∀ (n : Nat) {l : List α}, l.Pairwise R →
      (enumFrom n l).Pairwise (fun x y => R x.2 y.2) := by
  intro n l
  induction l generalizing n with
  | nil => intro _; exact List.Pairwise.nil
  | cons a l ih =>
    intro h
    rcases h with _ | ⟨ha, hl⟩
    refine List.Pairwise.cons ?_ (ih (n + 1) hl)
    intro y hy
    exact ha y.2 (enumFrom_mem (n + 1) l y hy)

theorem mem_enumFrom_of_mem {α : Type} {x : α} :
    ∀ {l : List α} (n : Nat), x ∈ l → ∃ i, (i, x) ∈ enumFrom n l := by
  intro l
  induction l with
  | nil => intro n h; cases h
  | cons a l ih =>
    intro n h
    rcases h with _ | ⟨_, h⟩
    · exact ⟨n, List.mem_cons_self _ _⟩
    · obtain ⟨i, hi⟩ := ih (n + 1) h
      exact ⟨i, List.mem_cons_of_mem _ hi⟩

/-- Entries of a list with pairwise distinct indices are determined by
their index. -/
theorem pairwise_idx_inj :
    ∀ {l : List ScoredEntry}, l.Pairwise (fun a b => a.idx ≠ b.idx) →
      ∀ x ∈ l, ∀ y ∈ l, x.idx = y.idx → x = y := by
  intro l
  induction l with
  | nil => intro _ x hx; cases hx
  | cons a l ih =>
    intro h x hx y hy heq
    rcases h with _ | ⟨ha, hl⟩
    rcases hx with _ | ⟨_, hx⟩ <;> rcases hy with _ | ⟨_, hy⟩
    · rfl
    · exact absurd heq (ha y hy)
    · exact absurd heq.symm (ha x hx)
    · exact ih hl x hx y hy heq

/-- Length of the unselected part of a list, when the selection is a
sublist of a duplicate-free list. -/
theorem sublist_filter_length {α : Type} [DecidableEq α] :
    ∀ {sel l : List α}, sel.Sublist l → l.Nodup →
      (l.filter (fun e => !sel.contains e)).length = l.length - sel.length := by
  intro sel l h
  induction h with
  | slnil => intro _; rfl
  | @cons l₁ l₂ a h ih =>
    intro hnod
    rcases hnod with _ | ⟨hna, hnod⟩
    have ha1 : a ∉ l₁ := fun hin => hna a (h.subset hin) rfl
    have hc : l₁.contains a = false := by
      rw [Bool.eq_false_iff]
      intro hcon
      exact ha1 (List.elem_iff.mp hcon)
    rw [List.filter_cons]
    simp only [hc, Bool.not_false, if_true]
    rw [List.length_cons, ih hnod]
    have h1 : (a :: l₂).length = l₂.length + 1 := rfl
    have h2 := h.length_le
    rw [h1]
    omega
  | @cons₂ l₁ l₂ a h ih =>
    intro hnod
    rcases hnod with _ | ⟨hna, hnod⟩
    have ha2 : a ∉ l₂ := fun hin => hna a hin rfl
    rw [List.filter_cons]
    have hc : (a :: l₁).contains a = true := by simp
    simp only [hc, Bool.not_true, Bool.false_eq_true, if_false]
    have hcong : l₂.filter (fun e => !(a :: l₁).contains e) = l₂.filter (fun e => !l₁.contains e) := by
      apply List.filter_congr
      intro x hx
      have hxa : x ≠ a := fun hh => ha2 (hh ▸ hx)
      simp [List.contains_cons, hxa]
    rw [hcong, ih hnod]
    have h1 : (a :: l₂).length = l₂.length + 1 := rfl
    have h2 : (a :: l₁).length = l₁.length + 1 := rfl
    have h3 := h.length_le
    rw [h1, h2]
    omega

/-- The contains-based membership test coincides with membership for
entries. -/
theorem contains_eq_mem {α : Type} [BEq α] [LawfulBEq α] (l : List α) (a : α) :
    l.contains a = true ↔ a ∈ l :=
  List.elem_iff


theorem isSlotAvailable_le {sched : List Slot} {s e : Int}
    (h : isSlotAvailable sched s e = true) : e ≤ END_BY_TIME := by
  unfold isSlotAvailable at h
  by_cases hc : END_BY_TIME < e
  · simp [hc] at h
  · omega

theorem isSlotAvailable_disjoint {sched : List Slot} {s e : Int} {iv : Slot}
    (h : isSlotAvailable sched s e = true) (hm : iv ∈ sched) :
    ¬ (s < iv.stop ∧ iv.start < e) := by
  unfold isSlotAvailable at h
  by_cases hc : END_BY_TIME < e
  · simp [hc] at h
  · simp only [hc, if_false] at h
    rw [List.all_eq_true] at h
    have := h iv hm
    simp only [Bool.not_eq_true', Bool.and_eq_false_iff, decide_eq_false_iff_not] at this
    rcases this with h1 | h2
    · intro hk; exact h1 hk.1
    · intro hk; exact h2 hk.2

theorem finderInv_step (st : GenState) (a : GAction) (h : finderInv st) :
    finderInv (stepAction st a) := by
  obtain ⟨h1, h2⟩ := h
  cases a with
  | register iv =>
    refine ⟨?_, h2⟩
    intro e he hg
    obtain ⟨m, hsm, hiv, hmem, hle⟩ := h1 e he hg
    exact ⟨m, hsm, hiv, List.mem_append_left _ hmem, hle⟩
  | emit item iv sm d =>
    simp only [stepAction]
    constructor
    · intro e he hg
      rcases List.mem_append.mp he with he' | he'
      · obtain ⟨m, hsm, hiv', hmem, hle⟩ := h1 e he' hg
        exact ⟨m, hsm, hiv', List.mem_append_left _ hmem, hle⟩
      · rcases List.mem_singleton.mp he' with rfl
        simp [goodFinder] at hg
    · rw [List.filter_append]
      have hnil : ∀ pi : PlacedItem, pi.viaFinder = false →
          List.filter goodFinder [pi] = [] := by
        intro pi hv
        simp [goodFinder, hv]
      rw [hnil _ rfl, List.append_nil]
      exact h2
  | place p d build =>
    simp only [stepAction]
    constructor
    · intro e he hg
      rcases List.mem_append.mp he with he' | he'
      · obtain ⟨m, hsm, hiv', hmem, hle⟩ := h1 e he' hg
        exact ⟨m, hsm, hiv', List.mem_append_left _ hmem, hle⟩
      · rcases List.mem_singleton.mp he' with rfl
        simp only [goodFinder, Bool.and_eq_true, Bool.not_eq_true'] at hg
        have hok : isSlotAvailable st.scheduled (findNextSlot st.scheduled p d)
            (findNextSlot st.scheduled p d + d) = true := by
          have := hg.2
          simpa using this
        refine ⟨findNextSlot st.scheduled p d, rfl, rfl, ?_, ?_⟩
        · exact List.mem_append_right _ (List.mem_singleton.mpr rfl)
        · exact isSlotAvailable_le hok
    · rw [List.filter_append]
      cases hok : isSlotAvailable st.scheduled (findNextSlot st.scheduled p d)
          (findNextSlot st.scheduled p d + d) with
      | false =>
        have hnil : List.filter goodFinder
            [(⟨build (findNextSlot st.scheduled p d),
              some ⟨findNextSlot st.scheduled p d, findNextSlot st.scheduled p d + d⟩,
              true, !false, some (findNextSlot st.scheduled p d), d⟩ : PlacedItem)] = [] := by
          simp [goodFinder]
        rw [hnil, List.append_nil]
        exact h2
      | true =>
        have hone : List.filter goodFinder
            [(⟨build (findNextSlot st.scheduled p d),
              some ⟨findNextSlot st.scheduled p d, findNextSlot st.scheduled p d + d⟩,
              true, !true, some (findNextSlot st.scheduled p d), d⟩ : PlacedItem)] =
            [(⟨build (findNextSlot st.scheduled p d),
              some ⟨findNextSlot st.scheduled p d, findNextSlot st.scheduled p d + d⟩,
              true, !true, some (findNextSlot st.scheduled p d), d⟩ : PlacedItem)] := by
          simp [goodFinder]
        rw [hone, List.pairwise_append]
        refine ⟨h2, List.pairwise_singleton _ _, ?_⟩
        intro e1 he1 e2 he2
        rcases List.mem_singleton.mp he2 with rfl
        rcases List.mem_filter.mp he1 with ⟨he1m, he1g⟩
        obtain ⟨m1, hsm1, hiv1, hmem1, hle1⟩ := h1 e1 he1m he1g
        intro iv1 iv2 hiv1' hiv2'
        have hd := isSlotAvailable_disjoint hok hmem1
        rw [hiv1] at hiv1'
        injection hiv1' with hh
        subst hh
        simp only [Option.some.injEq] at hiv2'
        subst hiv2'
        intro hk
        exact hd ⟨by simpa using hk.2, by simpa using hk.1⟩

theorem stepAction_scheduled_mono (st : GenState) (a : GAction) :
    ∀ iv ∈ st.scheduled, iv ∈ (stepAction st a).scheduled := by
  intro iv hiv
  cases a with
  | register s => exact List.mem_append_left _ hiv
  | emit item s sm d => exact List.mem_append_left _ hiv
  | place p d build => exact List.mem_append_left _ hiv

theorem stepAction_trace_mono (st : GenState) (a : GAction) :
    ∀ e ∈ st.trace, e ∈ (stepAction st a).trace := by
  intro e he
  cases a with
  | register s => exact he
  | emit item s sm d => exact List.mem_append_left _ he
  | place p d build => exact List.mem_append_left _ he

theorem runActions_scheduled_mono :
    ∀ (as : List GAction) (st : GenState) (iv : Slot),
      iv ∈ st.scheduled → iv ∈ (runActions st as).scheduled := by
  intro as
  induction as with
  | nil => intro st iv h; exact h
  | cons a as ih =>
    intro st iv h
    exact ih (stepAction st a) iv (stepAction_scheduled_mono st a iv h)

theorem runActions_trace_mono :
    ∀ (as : List GAction) (st : GenState) (e : PlacedItem),
      e ∈ st.trace → e ∈ (runActions st as).trace := by
  intro as
  induction as with
  | nil => intro st e h; exact h
  | cons a as ih =>
    intro st e h
    exact ih (stepAction st a) e (stepAction_trace_mono st a e h)

theorem finderInv_run :
    ∀ (as : List GAction) (st : GenState), finderInv st → finderInv (runActions st as) := by
  intro as
  induction as with
  | nil => intro st h; exact h
  | cons a as ih => intro st h; exact ih (stepAction st a) (finderInv_step st a h)

theorem finderInv_init : finderInv ⟨[], []⟩ := by
  constructor
  · intro e he; cases he
  · exact List.Pairwise.nil

theorem finderInv_generate (preferences : UserPreferences) (survey : DailySurvey)
    (weather : Option WeatherData) (catalog : List Activity) (babyAgeMonths : Int)
    (rand : Nat → ℚ) :
    finderInv (generateChecklistTrace preferences survey weather catalog babyAgeMonths rand) :=
  finderInv_run _ _ finderInv_init

/-- C1 (amended): after a full generateChecklist run, any two distinct
items that were placed through the slot finder (naps, recurring tasks other
than the bath and appointment-fulfilled ones, bonus activities) and were
not placed by the no-free-slot fallback occupy non-overlapping registered
intervals.  Feed items, which the run seeds verbatim at their configured
times, are exempt, as the counterexample forces. -/
theorem c1_no_overlap_finder (preferences : UserPreferences) (survey : DailySurvey)
    (weather : Option WeatherData) (catalog : List Activity) (babyAgeMonths : Int)
    (rand : Nat → ℚ) :
    ((generateChecklistTrace preferences survey weather catalog babyAgeMonths rand).trace.filter
      goodFinder).Pairwise regIntervalsDisjoint :=
  (finderInv_generate preferences survey weather catalog babyAgeMonths rand).2

/-- C2 (amended): every item placed through the slot finder other than by
the no-free-slot fallback satisfies suggestedStart + duration <= 1110.
Feed items (seeded even past the boundary), appointment-fulfilled recurring
items and the bath task are exempt. -/
theorem c2_boundary_finder (preferences : UserPreferences) (survey : DailySurvey)
    (weather : Option WeatherData) (catalog : List Activity) (babyAgeMonths : Int)
    (rand : Nat → ℚ) :
    ∀ e ∈ (generateChecklistTrace preferences survey weather catalog babyAgeMonths rand).trace,
      goodFinder e = true →
      ∃ m, e.suggestedMins = some m ∧ m + e.claimDur ≤ 1110 := by
  intro e he hg
  obtain ⟨m, hsm, _, _, hle⟩ :=
    (finderInv_generate preferences survey weather catalog babyAgeMonths rand).1 e he hg
  exact ⟨m, hsm, hle⟩

/-- C2 witness: the nap of a one-nap schedule is finder-placed at 10:00 AM
and ends within the boundary. -/
theorem c2_boundary_finder_witness :
    (napWitnessEntry ∈ (generateChecklistTrace prefsNapOnly surveyEmpty none [] 6 rand0).trace ∧
      goodFinder napWitnessEntry = true) ∧
    ∃ m, napWitnessEntry.suggestedMins = some m ∧ m + napWitnessEntry.claimDur ≤ 1110 :=
  ⟨⟨by decide, by decide⟩,
    c2_boundary_finder prefsNapOnly surveyEmpty none [] 6 rand0 napWitnessEntry
      (by decide) (by decide)⟩

theorem nodup_snoc {α : Type} {l : List α} {e : α} (h : l.Nodup) (he : e ∉ l) :
    (l ++ [e]).Nodup := by
  rw [List.nodup_append]
  refine ⟨h, List.nodup_singleton e, ?_⟩
  intro a ha hb
  rw [List.mem_singleton] at hb
  subst hb
  exact he ha

theorem chooseForSlot_mem :
    ∀ (sorted : List ScoredEntry) (total count : Nat) (slotMins : Int)
      (used : List ActivityCategory) (sel : List ScoredEntry) (e : ScoredEntry),
      chooseForSlot total count slotMins used sel sorted = some e → e ∈ sorted ∧ e ∉ sel := by
  intro sorted
  induction sorted with
  | nil => intro total count slotMins used sel e h; cases h
  | cons x rest ih =>
    intro total count slotMins used sel e h
    unfold chooseForSlot at h
    split_ifs at h with h1 h2 h3 h4
    · obtain ⟨hm, hn⟩ := ih total count slotMins used sel e h
      exact ⟨List.mem_cons_of_mem _ hm, hn⟩
    · obtain ⟨hm, hn⟩ := ih total count slotMins used sel e h
      exact ⟨List.mem_cons_of_mem _ hm, hn⟩
    · obtain rfl := Option.some.inj h
      refine ⟨List.mem_cons_self _ _, ?_⟩
      intro hmem
      rw [← contains_eq_mem] at hmem
      exact h1 hmem
    · obtain ⟨hm, hn⟩ := ih total count slotMins used sel e h
      exact ⟨List.mem_cons_of_mem _ hm, hn⟩
    · obtain ⟨hm, hn⟩ := ih total count slotMins used sel e h
      exact ⟨List.mem_cons_of_mem _ hm, hn⟩

theorem fillChoose_mem :
    ∀ (sorted : List ScoredEntry) (slotMins : Int) (sel : List ScoredEntry) (e : ScoredEntry),
      fillChoose slotMins sel sorted = some e → e ∈ sorted ∧ e ∉ sel := by
  intro sorted
  induction sorted with
  | nil => intro slotMins sel e h; cases h
  | cons x rest ih =>
    intro slotMins sel e h
    unfold fillChoose at h
    split_ifs at h with h1 h2
    · obtain ⟨hm, hn⟩ := ih slotMins sel e h
      exact ⟨List.mem_cons_of_mem _ hm, hn⟩
    · obtain ⟨hm, hn⟩ := ih slotMins sel e h
      exact ⟨List.mem_cons_of_mem _ hm, hn⟩
    · obtain rfl := Option.some.inj h
      refine ⟨List.mem_cons_self _ _, ?_⟩
      intro hmem
      rw [← contains_eq_mem] at hmem
      exact h1 hmem

theorem slotLoopTC_sub (sorted : List ScoredEntry) (total count : Nat) (times : List Int) :
    ∀ (fuel i : Nat) (sel : List ScoredEntry) (used : List ActivityCategory),
      sel.Nodup → (∀ x ∈ sel, x ∈ sorted) →
      ((slotLoopTC sorted total count times fuel i sel used).1.Nodup ∧
        ∀ x ∈ (slotLoopTC sorted total count times fuel i sel used).1, x ∈ sorted) := by
  intro fuel
  induction fuel with
  | zero => intro i sel used hn hs; exact ⟨hn, hs⟩
  | succ fuel ih =>
    intro i sel used hn hs
    unfold slotLoopTC
    by_cases hlen : sel.length < count
    · simp only [hlen, if_true]
      cases hch : chooseForSlot total count (jsIdxTimes times i) used sel sorted with
      | some e =>
        obtain ⟨hm, hnm⟩ := chooseForSlot_mem sorted total count _ used sel e hch
        refine ih (i + 1) (sel ++ [e]) (used ++ [e.activity.category]) (nodup_snoc hn hnm) ?_
        intro x hx
        rcases List.mem_append.mp hx with hx' | hx'
        · exact hs x hx'
        · rw [List.mem_singleton] at hx'; subst hx'; exact hm
      | none => exact ih (i + 1) sel used hn hs
    · simp only [hlen, if_false]
      exact ⟨hn, hs⟩

theorem fillLoopTC_sub (sorted : List ScoredEntry) (times : List Int) :
    ∀ (fuel i : Nat) (sel : List ScoredEntry),
      sel.Nodup → (∀ x ∈ sel, x ∈ sorted) →
      ((fillLoopTC sorted times fuel i sel).Nodup ∧
        ∀ x ∈ fillLoopTC sorted times fuel i sel, x ∈ sorted) := by
  intro fuel
  induction fuel with
  | zero => intro i sel hn hs; exact ⟨hn, hs⟩
  | succ fuel ih =>
    intro i sel hn hs
    unfold fillLoopTC
    cases hch : fillChoose (jsIdxTimes times i) sel sorted with
    | some e =>
      obtain ⟨hm, hnm⟩ := fillChoose_mem sorted _ sel e hch
      refine ih (i + 1) (sel ++ [e]) (nodup_snoc hn hnm) ?_
      intro x hx
      rcases List.mem_append.mp hx with hx' | hx'
      · exact hs x hx'
      · rw [List.mem_singleton] at hx'; subst hx'; exact hm
    | none => exact ih (i + 1) sel hn hs

theorem pickPass1_spec (count : Nat) :
    ∀ (rest sel : List ScoredEntry) (used : List ActivityCategory),
      ∃ t, (pickPass1 count rest sel used).1 = sel ++ t ∧ t.Sublist rest := by
  intro rest
  induction rest with
  | nil => intro sel used; exact ⟨[], by simp [pickPass1], List.Sublist.refl _⟩
  | cons e rest ih =>
    intro sel used
    unfold pickPass1
    split_ifs with h1 h2
    · exact ⟨[], by simp, List.nil_sublist _⟩
    · obtain ⟨t, ht, hsub⟩ := ih sel used
      exact ⟨t, ht, hsub.cons e⟩
    · obtain ⟨t, ht, hsub⟩ := ih (sel ++ [e]) (used ++ [e.activity.category])
      refine ⟨e :: t, ?_, hsub.cons₂ e⟩
      rw [ht, List.append_assoc]
      rfl

theorem pickPass1_length_le (count : Nat) :
    ∀ (rest sel : List ScoredEntry) (used : List ActivityCategory),
      sel.length ≤ count → (pickPass1 count rest sel used).1.length ≤ count := by
  intro rest
  induction rest with
  | nil => intro sel used h; exact h
  | cons e rest ih =>
    intro sel used h
    unfold pickPass1
    split_ifs with h1 h2
    · exact h
    · exact ih sel used h
    · refine ih (sel ++ [e]) (used ++ [e.activity.category]) ?_
      rw [List.length_append, List.length_singleton]
      omega

theorem pickPass2_nodup (count : Nat) :
    ∀ (rest sel : List ScoredEntry), sel.Nodup → (pickPass2 count rest sel).Nodup := by
  intro rest
  induction rest with
  | nil => intro sel h; exact h
  | cons e rest ih =>
    intro sel h
    unfold pickPass2
    split_ifs with h1 h2
    · exact h
    · exact ih sel h
    · refine ih (sel ++ [e]) (nodup_snoc h ?_)
      intro hmem
      rw [← contains_eq_mem] at hmem
      exact h2 hmem

theorem pickPass2_mem (count : Nat) :
    ∀ (rest sel : List ScoredEntry) (x : ScoredEntry),
      x ∈ pickPass2 count rest sel → x ∈ sel ∨ x ∈ rest := by
  intro rest
  induction rest with
  | nil => intro sel x h; exact Or.inl h
  | cons e rest ih =>
    intro sel x h
    unfold pickPass2 at h
    split_ifs at h with h1 h2
    · exact Or.inl h
    · rcases ih sel x h with h' | h'
      · exact Or.inl h'
      · exact Or.inr (List.mem_cons_of_mem _ h')
    · rcases ih (sel ++ [e]) x h with h' | h'
      · rcases List.mem_append.mp h' with h'' | h''
        · exact Or.inl h''
        · rw [List.mem_singleton] at h''; subst h''
          exact Or.inr (List.mem_cons_self _ _)
      · exact Or.inr (List.mem_cons_of_mem _ h')

theorem bonusPool_pairwise_idx (catalog : List Activity) (survey : DailySurvey)
    (weather : Option WeatherData) (babyAgeMonths : Int) (rand : Nat → ℚ) :
    (bonusPool catalog survey weather babyAgeMonths rand).Pairwise
      (fun a b => a.idx ≠ b.idx) := by
  unfold bonusPool
  apply List.Pairwise.filter
  rw [List.pairwise_map]
  have h0 : ((enumFrom 0 catalog).filter
      (fun e => !overlapsWithRecurringTasks e.2)).Pairwise
      (fun a b : Nat × Activity => a.1 ≠ b.1) :=
    List.Pairwise.filter _ ((enumFrom_pairwise_fst 0 catalog).imp (fun h => Nat.ne_of_lt h))
  exact (enumFrom_pairwise_snd 0 h0).imp (fun h => h)

theorem bonusPool_nodup (catalog : List Activity) (survey : DailySurvey)
    (weather : Option WeatherData) (babyAgeMonths : Int) (rand : Nat → ℚ) :
    (bonusPool catalog survey weather babyAgeMonths rand).Nodup :=
  (bonusPool_pairwise_idx catalog survey weather babyAgeMonths rand).imp
    (fun h heq => h (by rw [heq]))

theorem bonusPool_mem_catalog {catalog : List Activity} {survey : DailySurvey}
    {weather : Option WeatherData} {babyAgeMonths : Int} {rand : Nat → ℚ} {e : ScoredEntry}
    (he : e ∈ bonusPool catalog survey weather babyAgeMonths rand) : e.activity ∈ catalog := by
  unfold bonusPool at he
  have he1 := (List.mem_filter.mp he).1
  rcases List.mem_map.mp he1 with ⟨je, hje, rfl⟩
  have h2 := enumFrom_mem 0 _ je hje
  have h3 := (List.mem_filter.mp h2).1
  exact enumFrom_mem 0 catalog je.2 h3

theorem pickDiverse_mem {scored : List ScoredEntry} {count : Nat} {x : ScoredEntry}
    (h : x ∈ pickDiverseActivities scored count) : x ∈ scored := by
  unfold pickDiverseActivities at h
  rcases pickPass2_mem count _ _ x h with h' | h'
  · obtain ⟨t, ht, hsub⟩ := pickPass1_spec count (stableSort scoreDescPrecedes scored) [] []
    rw [ht, List.nil_append] at h'
    exact mem_stableSort (hsub.subset h')
  · exact mem_stableSort h'

theorem pickTC_mem {scored : List ScoredEntry} {count : Nat} {ts : List Int} {x : ScoredEntry}
    (h : x ∈ pickDiverseActivitiesWithTimeConstraints scored count ts) : x ∈ scored := by
  simp only [pickDiverseActivitiesWithTimeConstraints] at h
  have hslot := slotLoopTC_sub (stableSort scoreDescPrecedes scored)
    (stableSort scoreDescPrecedes scored).length count ts count 0 [] []
    List.nodup_nil (by intro y hy; cases hy)
  have hfill := fillLoopTC_sub (stableSort scoreDescPrecedes scored) ts
    (count - (slotLoopTC (stableSort scoreDescPrecedes scored)
      (stableSort scoreDescPrecedes scored).length count ts count 0 [] []).1.length)
    ((slotLoopTC (stableSort scoreDescPrecedes scored)
      (stableSort scoreDescPrecedes scored).length count ts count 0 [] []).1.length)
    ((slotLoopTC (stableSort scoreDescPrecedes scored)
      (stableSort scoreDescPrecedes scored).length count ts count 0 [] []).1)
    hslot.1 hslot.2
  exact mem_stableSort (hfill.2 x h)

theorem pickDiverse_nodup {scored : List ScoredEntry} {count : Nat} (hnd : scored.Nodup) :
    (pickDiverseActivities scored count).Nodup := by
  unfold pickDiverseActivities
  apply pickPass2_nodup
  obtain ⟨t, ht, hsub⟩ := pickPass1_spec count (stableSort scoreDescPrecedes scored) [] []
  rw [ht, List.nil_append]
  exact hsub.nodup (((stableSort_perm _ _).nodup_iff).mpr hnd)

theorem pickTC_nodup {scored : List ScoredEntry} {count : Nat} {ts : List Int} :
    (pickDiverseActivitiesWithTimeConstraints scored count ts).Nodup := by
  simp only [pickDiverseActivitiesWithTimeConstraints]
  have hslot := slotLoopTC_sub (stableSort scoreDescPrecedes scored)
    (stableSort scoreDescPrecedes scored).length count ts count 0 [] []
    List.nodup_nil (by intro y hy; cases hy)
  exact (fillLoopTC_sub (stableSort scoreDescPrecedes scored) ts
    (count - (slotLoopTC (stableSort scoreDescPrecedes scored)
      (stableSort scoreDescPrecedes scored).length count ts count 0 [] []).1.length)
    ((slotLoopTC (stableSort scoreDescPrecedes scored)
      (stableSort scoreDescPrecedes scored).length count ts count 0 [] []).1.length)
    ((slotLoopTC (stableSort scoreDescPrecedes scored)
      (stableSort scoreDescPrecedes scored).length count ts count 0 [] []).1)
    hslot.1 hslot.2).1

theorem selectBonus_mem_pool {catalog : List Activity} {survey : DailySurvey}
    {weather : Option WeatherData} {babyAgeMonths : Int} {rand : Nat → ℚ} {count : Nat}
    {times : Option (List Int)} {e : ScoredEntry}
    (h : e ∈ selectBonusActivities catalog survey weather babyAgeMonths rand count times) :
    e ∈ bonusPool catalog survey weather babyAgeMonths rand := by
  cases times with
  | none =>
    simp only [selectBonusActivities] at h
    exact pickDiverse_mem h
  | some ts =>
    simp only [selectBonusActivities] at h
    by_cases hl : 0 < ts.length
    · rw [if_pos hl] at h
      exact pickTC_mem h
    · rw [if_neg hl] at h
      exact pickDiverse_mem h

theorem selectBonus_nodup (catalog : List Activity) (survey : DailySurvey)
    (weather : Option WeatherData) (babyAgeMonths : Int) (rand : Nat → ℚ) (count : Nat)
    (times : Option (List Int)) :
    (selectBonusActivities catalog survey weather babyAgeMonths rand count times).Nodup := by
  have hnd := bonusPool_nodup catalog survey weather babyAgeMonths rand
  cases times with
  | none =>
    simp only [selectBonusActivities]
    exact pickDiverse_nodup hnd
  | some ts =>
    simp only [selectBonusActivities]
    by_cases hl : 0 < ts.length
    · rw [if_pos hl]
      exact pickTC_nodup
    · rw [if_neg hl]
      exact pickDiverse_nodup hnd

/-- C10: selectBonusActivities never returns the same catalog entry twice,
on both the plain and the time-constrained selection paths: the catalog
positions (standing for JS object identity) of the returned entries are
pairwise distinct. -/
theorem c10_no_duplicates (catalog : List Activity) (survey : DailySurvey)
    (weather : Option WeatherData) (babyAgeMonths : Int) (rand : Nat → ℚ) (count : Nat)
    (times : Option (List Int)) :
    ((selectBonusActivities catalog survey weather babyAgeMonths rand count times).map
      (fun e => e.idx)).Nodup := by
  have hpw := bonusPool_pairwise_idx catalog survey weather babyAgeMonths rand
  refine List.Nodup.map_on ?_ (selectBonus_nodup catalog survey weather babyAgeMonths rand count times)
  intro x hx y hy heq
  exact pairwise_idx_inj hpw x (selectBonus_mem_pool hx) y (selectBonus_mem_pool hy) heq

theorem pickPass2_length (count : Nat) :
    ∀ (rest sel : List ScoredEntry), rest.Nodup → sel.length ≤ count →
      (pickPass2 count rest sel).length =
        min count (sel.length + (rest.filter (fun e => !sel.contains e)).length) := by
  intro rest
  induction rest with
  | nil =>
    intro sel _ hlen
    unfold pickPass2
    simp only [List.filter_nil, List.length_nil, Nat.add_zero]
    exact (Nat.min_eq_right hlen).symm
  | cons e rest ih =>
    intro sel hnd hlen
    rcases hnd with _ | ⟨hne, hnd⟩
    unfold pickPass2
    by_cases h1 : count ≤ sel.length
    · simp only [h1, if_true]
      have heq : sel.length = count := Nat.le_antisymm hlen h1
      rw [heq]
      exact (Nat.min_eq_left (Nat.le_add_right _ _)).symm
    · simp only [h1, if_false]
      by_cases h2 : sel.contains e = true
      · simp only [h2, if_true]
        rw [List.filter_cons]
        have hcf : (!sel.contains e) = false := by rw [h2]; rfl
        rw [hcf]
        simp only [Bool.false_eq_true, if_false]
        exact ih sel hnd hlen
      · have h2' : sel.contains e = false := Bool.eq_false_iff.mpr h2
        simp only [h2', Bool.false_eq_true, if_false]
        rw [List.filter_cons]
        have hct : (!sel.contains e) = true := by rw [h2']; rfl
        rw [hct]
        simp only [if_true]
        have hl2 : (sel ++ [e]).length ≤ count := by
          rw [List.length_append, List.length_singleton]
          omega
        rw [ih (sel ++ [e]) hnd hl2]
        have hcong : rest.filter (fun x => !(sel ++ [e]).contains x) =
            rest.filter (fun x => !sel.contains x) := by
          apply List.filter_congr
          intro x hx
          have hxe : x ≠ e := fun hh => (hne x hx) hh.symm
          by_cases hsx : x ∈ sel
          · have ha : sel.contains x = true := (contains_eq_mem sel x).mpr hsx
            have hb : (sel ++ [e]).contains x = true :=
              (contains_eq_mem _ x).mpr (List.mem_append_left _ hsx)
            rw [ha, hb]
          · have ha : sel.contains x = false := by
              rw [Bool.eq_false_iff]
              intro hc
              exact hsx ((contains_eq_mem _ _).mp hc)
            have hb : (sel ++ [e]).contains x = false := by
              rw [Bool.eq_false_iff]
              intro hc
              rcases List.mem_append.mp ((contains_eq_mem _ _).mp hc) with hh | hh
              · exact hsx hh
              · rw [List.mem_singleton] at hh
                exact hxe hh
            rw [ha, hb]
        rw [hcong]
        rw [List.length_cons, List.length_append, List.length_singleton]
        congr 1
        omega

/-- C8 (amended): on the plain path (no per-slot times), selectBonusActivities
returns exactly min(count, pool size) activities, so it returns fewer than
count only when the filtered candidate pool is smaller than count, and it
never raises an error.  With per-slot times supplied, the cafe end-time
filter can additionally leave slots unfilled (see the counterexample). -/
theorem c8_selection_length (catalog : List Activity) (survey : DailySurvey)
    (weather : Option WeatherData) (babyAgeMonths : Int) (rand : Nat → ℚ) (count : Nat) :
    (selectBonusActivities catalog survey weather babyAgeMonths rand count none).length =
      min count (bonusPool catalog survey weather babyAgeMonths rand).length := by
  simp only [selectBonusActivities, pickDiverseActivities]
  have hperm := stableSort_perm scoreDescPrecedes (bonusPool catalog survey weather babyAgeMonths rand)
  have hnd : (stableSort scoreDescPrecedes (bonusPool catalog survey weather babyAgeMonths rand)).Nodup :=
    (hperm.nodup_iff).mpr (bonusPool_nodup catalog survey weather babyAgeMonths rand)
  obtain ⟨t, ht, hsub⟩ := pickPass1_spec count
    (stableSort scoreDescPrecedes (bonusPool catalog survey weather babyAgeMonths rand)) [] []
  have hlen1 : (pickPass1 count
      (stableSort scoreDescPrecedes (bonusPool catalog survey weather babyAgeMonths rand)) [] []).1.length ≤ count :=
    pickPass1_length_le count _ [] [] (by simp)
  rw [pickPass2_length count _ _ hnd hlen1, ht, List.nil_append]
  rw [sublist_filter_length hsub hnd]
  have hle : t.length ≤ (stableSort scoreDescPrecedes (bonusPool catalog survey weather babyAgeMonths rand)).length :=
    hsub.length_le
  have harith : t.length + ((stableSort scoreDescPrecedes (bonusPool catalog survey weather babyAgeMonths rand)).length - t.length) =
      (stableSort scoreDescPrecedes (bonusPool catalog survey weather babyAgeMonths rand)).length := by
    omega
  rw [harith, hperm.length_eq]

theorem recurringSlot_duration_pos (task : String) :
    0 < ((recurringSlotFor task).getD { time := "9:00 AM", duration := 20 }).duration := by
  cases hf : recurringSlotFor task with
  | none => norm_num [Option.getD]
  | some s =>
    unfold recurringSlotFor at hf
    rcases Option.map_eq_some'.mp hf with ⟨pr, hfind, rfl⟩
    have hmem := List.mem_of_find?_eq_some hfind
    have hall : ∀ pr ∈ recurringTimeSlotEntries, 0 < pr.2.duration := by decide
    exact hall pr hmem

theorem fulfilledActionFor_pos (appointments : List ParsedAppointment) (index : Nat)
    (task : String) (slot : RecurringSlot) :
    ∀ act, fulfilledActionFor appointments index task slot = some act → posAction act := by
  intro act h
  unfold fulfilledActionFor at h
  split_ifs at h
  cases hfind : appointments.find? (fun a => a.fulfillsTask == some task) with
  | none => rw [hfind] at h; cases h
  | some apt =>
    rw [hfind] at h
    dsimp only at h
    cases hs : apt.startMins with
    | none => rw [hs] at h; dsimp only at h; cases h
    | some s =>
      rw [hs] at h
      dsimp only at h
      obtain rfl := Option.some.inj h
      trivial

theorem recurringActionFor_pos (appointments : List ParsedAppointment) (it : Nat × String) :
    posAction (recurringActionFor appointments it) := by
  have hdur := recurringSlot_duration_pos it.2
  simp only [recurringActionFor]
  cases hf : fulfilledActionFor appointments it.1 it.2
      ((recurringSlotFor it.2).getD { time := "9:00 AM", duration := 20 }) with
  | some act => exact fulfilledActionFor_pos appointments it.1 it.2 _ act hf
  | none =>
    by_cases hex :
        ((recurringSlotFor it.2).getD { time := "9:00 AM", duration := 20 }).exemptFromEndTime = true
    · simp only [if_pos hex, posAction]
      omega
    · simp only [if_neg hex, posAction]
      omega

theorem posAction_step (st : GenState) (a : GAction) (hp : posAction a)
    (h : tracePositive st) : tracePositive (stepAction st a) := by
  cases a with
  | register iv => exact h
  | emit item iv sm d =>
    intro e he s hes
    rcases List.mem_append.mp he with he' | he'
    · exact h e he' s hes
    · rcases List.mem_singleton.mp he' with rfl
      unfold posAction at hp
      cases iv with
      | some s' =>
        obtain rfl := Option.some.inj hes
        exact hp
      | none => cases hes
  | place p d build =>
    intro e he s hes
    rcases List.mem_append.mp he with he' | he'
    · exact h e he' s hes
    · rcases List.mem_singleton.mp he' with rfl
      obtain rfl := Option.some.inj hes
      unfold posAction at hp
      simp only
      omega

theorem posAction_run :
    ∀ (as : List GAction) (st : GenState), (∀ a ∈ as, posAction a) → tracePositive st →
      tracePositive (runActions st as) := by
  intro as
  induction as with
  | nil => intro st _ h; exact h
  | cons a as ih =>
    intro st hall h
    exact ih (stepAction st a)
      (fun b hb => hall b (List.mem_cons_of_mem _ hb))
      (posAction_step st a (hall a (List.mem_cons_self _ _)) h)

theorem generateActions_pos (preferences : UserPreferences) (survey : DailySurvey)
    (weather : Option WeatherData) (catalog : List Activity) (babyAgeMonths : Int)
    (rand : Nat → ℚ)
    (hnap : 0 ≤ preferences.napDuration)
    (hcat : ∀ a ∈ catalog, 0 < a.duration) :
    ∀ act ∈ generateActions preferences survey weather catalog babyAgeMonths rand,
      posAction act := by
  intro act hact
  unfold generateActions at hact
  rcases List.mem_append.mp hact with hact | hbonus
  · rcases List.mem_append.mp hact with hact | hrecur
    · rcases List.mem_append.mp hact with hact | hnaps
      · rcases List.mem_append.mp hact with hfeed | happt
        · rcases List.mem_map.mp hfeed with ⟨it, _, rfl⟩
          simp only [posAction]
          omega
        · rcases List.mem_filterMap.mp happt with ⟨apt, _, heq⟩
          cases hs : apt.startMins <;> cases he : apt.endMins <;>
            rw [hs, he] at heq <;> simp only [Option.some.injEq] at heq
          · cases heq
          · cases heq
          · cases heq
          · rw [← heq]
            trivial
      · rcases List.mem_map.mp hnaps with ⟨i, _, rfl⟩
        simp only [posAction, jsOrInt]
        by_cases h0 : preferences.napDuration == 0
        · simp only [h0, if_true]
          norm_num
        · simp only [h0, Bool.false_eq_true, if_false]
          have : preferences.napDuration ≠ 0 := by simpa using h0
          omega
    · rcases List.mem_map.mp hrecur with ⟨it, _, rfl⟩
      exact recurringActionFor_pos _ it
  · rcases List.mem_map.mp hbonus with ⟨it, hit, rfl⟩
    simp only [posAction]
    have h1 := enumFrom_mem 0 _ it hit
    exact hcat _ (bonusPool_mem_catalog (selectBonus_mem_pool h1))

/-- C3 (amended): every interval that a generateChecklist run registers
into scheduledTimes through an item placement -- feeds, naps, recurring
tasks, bonus activities -- satisfies end > start, provided the configured
nap duration is nonnegative and every catalog activity has positive
duration.  Parsed-appointment intervals are excluded: the range heuristic
can produce end <= start (see the counterexample). -/
theorem c3_positive_intervals (preferences : UserPreferences) (survey : DailySurvey)
    (weather : Option WeatherData) (catalog : List Activity) (babyAgeMonths : Int)
    (rand : Nat → ℚ)
    (hnap : 0 ≤ preferences.napDuration)
    (hcat : ∀ a ∈ catalog, 0 < a.duration) :
    ∀ e ∈ (generateChecklistTrace preferences survey weather catalog babyAgeMonths rand).trace,
      ∀ iv, e.interval = some iv → iv.start < iv.stop := by
  have hpos := generateActions_pos preferences survey weather catalog babyAgeMonths rand hnap hcat
  have hrun := posAction_run (generateActions preferences survey weather catalog babyAgeMonths rand)
    ⟨[], []⟩ hpos (by intro e he; cases he)
  exact hrun

/-- C3 witness: the nap interval [600, 630) of a one-nap run is positive. -/
theorem c3_positive_intervals_witness :
    ((0 : Int) ≤ 30 ∧ napWitnessEntry ∈ (generateChecklistTrace prefsNapOnly surveyEmpty none [] 6 rand0).trace) ∧
    ∀ iv, napWitnessEntry.interval = some iv → iv.start < iv.stop :=
  ⟨⟨by decide, by decide⟩,
    c3_positive_intervals prefsNapOnly surveyEmpty none [] 6 rand0 (by decide)
      (by intro a ha; cases ha) napWitnessEntry (by decide)⟩

theorem chooseForSlot_cafe (total count : Nat) (slotMins : Int) (used : List ActivityCategory)
    (sel : List ScoredEntry) :
    ∀ (l : List ScoredEntry) (e : ScoredEntry),
      chooseForSlot total count slotMins used sel l = some e →
      isCafeOrFoodActivity e.activity = true → slotMins + e.activity.duration ≤ 900 := by
  intro l
  induction l with
  | nil => intro e h; cases h
  | cons a rest ih =>
    intro e h hc
    unfold chooseForSlot at h
    split_ifs at h with h1 h2 h3 h4
    · exact ih e h hc
    · exact ih e h hc
    · obtain rfl := Option.some.inj h
      by_contra hlt
      push_neg at hlt
      exact h2 (by rw [Bool.and_eq_true]; exact ⟨hc, by simpa using hlt⟩)
    · exact ih e h hc
    · exact ih e h hc

theorem fillChoose_cafe (slotMins : Int) (sel : List ScoredEntry) :
    ∀ (l : List ScoredEntry) (e : ScoredEntry),
      fillChoose slotMins sel l = some e →
      isCafeOrFoodActivity e.activity = true → slotMins + e.activity.duration ≤ 900 := by
  intro l
  induction l with
  | nil => intro e h; cases h
  | cons a rest ih =>
    intro e h hc
    unfold fillChoose at h
    split_ifs at h with h1 h2
    · exact ih e h hc
    · exact ih e h hc
    · obtain rfl := Option.some.inj h
      by_contra hlt
      push_neg at hlt
      exact h2 (by rw [Bool.and_eq_true]; exact ⟨hc, by simpa using hlt⟩)

theorem getReplacement_cafe (catalog : List Activity) (survey : DailySurvey)
    (weather : Option WeatherData) (babyAgeMonths : Int) (rand : Nat → ℚ)
    (excl : List String) (t : Int) (e : ScoredEntry)
    (h : getReplacementActivity catalog survey weather babyAgeMonths rand excl (some t) = some e)
    (hc : isCafeOrFoodActivity e.activity = true) : t + e.activity.duration ≤ 900 := by
  simp only [getReplacementActivity] at h
  have hmem := List.mem_of_mem_head? (Option.mem_def.mpr h)
  have hsc := mem_stableSort hmem
  rcases List.mem_filter.mp hsc with ⟨hmap, _⟩
  rcases List.mem_map.mp hmap with ⟨je, hje, rfl⟩
  have h2 := enumFrom_mem 0 _ je hje
  rcases List.mem_filter.mp h2 with ⟨_, hp3⟩
  simp only at hp3 hc
  by_contra hlt
  push_neg at hlt
  have : (isCafeOrFoodActivity je.2.2 && decide (900 < t + je.2.2.duration)) = true := by
    rw [Bool.and_eq_true]; exact ⟨hc, by simpa using hlt⟩
  rw [this] at hp3
  cases hp3

/-- C7: a food/venue activity (cafe keyword in title, tag or id) of
duration d is skipped at a selection slot starting at s whenever
s + d > 900, in the diversity pass (chooseForSlot), the fill pass
(fillChoose) and in getReplacementActivity with scheduled minutes; in
particular a 60-minute cafe activity offered at slot start 870 is
rejected by both passes. -/
theorem c7_cafe_cutoff :
    (∀ (total count : Nat) (slotMins : Int) (used : List ActivityCategory)
        (sel l : List ScoredEntry) (e : ScoredEntry),
        chooseForSlot total count slotMins used sel l = some e →
        isCafeOrFoodActivity e.activity = true → slotMins + e.activity.duration ≤ 900) ∧
    (∀ (slotMins : Int) (sel l : List ScoredEntry) (e : ScoredEntry),
        fillChoose slotMins sel l = some e →
        isCafeOrFoodActivity e.activity = true → slotMins + e.activity.duration ≤ 900) ∧
    (∀ (catalog : List Activity) (survey : DailySurvey) (weather : Option WeatherData)
        (babyAgeMonths : Int) (rand : Nat → ℚ) (excl : List String) (t : Int)
        (e : ScoredEntry),
        getReplacementActivity catalog survey weather babyAgeMonths rand excl (some t) = some e →
        isCafeOrFoodActivity e.activity = true → t + e.activity.duration ≤ 900) ∧
    (chooseForSlot 1 1 870 [] [] [cafeEntry60] = none ∧
      fillChoose 870 [] [cafeEntry60] = none) :=
  ⟨fun total count slotMins used sel l e => chooseForSlot_cafe total count slotMins used sel l e,
    fun slotMins sel l e => fillChoose_cafe slotMins sel l e,
    fun catalog survey weather babyAgeMonths rand excl t e =>
      getReplacement_cafe catalog survey weather babyAgeMonths rand excl t e,
    by decide, by decide⟩

/-- C7 witness: the fill pass accepts the same cafe activity at slot 800,
and the cutoff bound follows from the theorem at that input. -/
theorem c7_cafe_cutoff_witness :
    fillChoose 800 [] [cafeEntry60] = some cafeEntry60 ∧
    isCafeOrFoodActivity cafeEntry60.activity = true ∧
    (800 : Int) + cafeEntry60.activity.duration ≤ 900 :=
  ⟨by decide, by decide,
    c7_cafe_cutoff.2.1 800 [] [cafeEntry60] cafeEntry60 (by decide) (by decide)⟩

theorem fulfilledActionFor_bath_none (appointments : List ParsedAppointment)
    (hnf : ∀ apt ∈ appointments, apt.fulfillsTask ≠ some "Having a bath") (i : Nat)
    (slot : RecurringSlot) :
    fulfilledActionFor appointments i "Having a bath" slot = none := by
  have hcont : (appointments.filterMap (fun a => a.fulfillsTask)).contains "Having a bath" = false := by
    rw [Bool.eq_false_iff]
    intro hc
    rw [contains_eq_mem] at hc
    rcases List.mem_filterMap.mp hc with ⟨apt, hapt, heq⟩
    exact hnf apt hapt heq
  have hne : ¬ ((appointments.filterMap (fun a => a.fulfillsTask)).contains "Having a bath" = true) := by
    rw [hcont]; exact Bool.false_ne_true
  unfold fulfilledActionFor
  rw [if_neg hne]

theorem recurringActionFor_bath (appointments : List ParsedAppointment)
    (hnf : ∀ apt ∈ appointments, apt.fulfillsTask ≠ some "Having a bath") (i : Nat) :
    recurringActionFor appointments (i, "Having a bath") =
      GAction.emit
        { id := "recurring-" ++ toString i, task := "Having a bath", completed := false,
          type := .recurring, timeBlock := .evening, suggestedTime := some "6:00 PM",
          canOverlap := some false, socialActivity := some false }
        (some ⟨1080, 1110⟩) (some 1080) 30 := by
  simp only [recurringActionFor]
  rw [fulfilledActionFor_bath_none appointments hnf i]
  cases hv : appointments.find? (fun a => a.type == AppointmentType.visitor) with
  | none => rfl
  | some vApt =>
    dsimp only
    cases hs : vApt.startMins <;> cases he : vApt.endMins <;> rfl

theorem runActions_emit_mem :
    ∀ (as : List GAction) (st : GenState) (item : ChecklistItem) (iv : Option Slot)
      (sm : Option Int) (d : Int),
      GAction.emit item iv sm d ∈ as →
      ({ item := item, interval := iv, viaFinder := false, fallback := false,
         suggestedMins := sm, claimDur := d } : PlacedItem) ∈ (runActions st as).trace ∧
      ∀ s, iv = some s → s ∈ (runActions st as).scheduled := by
  intro as
  induction as with
  | nil => intro st item iv sm d h; cases h
  | cons a rest ih =>
    intro st item iv sm d h
    rcases List.mem_cons.mp h with rfl | h'
    · have hstep : ({ item := item, interval := iv, viaFinder := false, fallback := false, suggestedMins := sm, claimDur := d } : PlacedItem) ∈ (stepAction st (GAction.emit item iv sm d)).trace :=
        List.mem_append.mpr (Or.inr (List.mem_singleton.mpr rfl))
      constructor
      · exact runActions_trace_mono rest _ _ hstep
      · intro s hs
        subst hs
        have hstep2 : s ∈ (stepAction st (GAction.emit item (some s) sm d)).scheduled :=
          List.mem_append.mpr (Or.inr (List.mem_singleton.mpr rfl))
        exact runActions_scheduled_mono rest _ _ hstep2
    · exact ih (stepAction st a) item iv sm d h'

/-- C5: whenever the recurring tasks include the bath and no appointment
fulfills it, the run emits a bath item pinned to its preferred 6:00 PM
slot -- interval [1080, 1110), past the 1110-minute boundary check it is
exempt from -- and that interval is registered into the occupied set. -/
theorem c5_bath_exemption (preferences : UserPreferences) (survey : DailySurvey)
    (weather : Option WeatherData) (catalog : List Activity) (babyAgeMonths : Int)
    (rand : Nat → ℚ)
    (hmem : "Having a bath" ∈ preferences.recurringTasks)
    (hnf : ∀ apt ∈ appointmentsOf survey, apt.fulfillsTask ≠ some "Having a bath") :
    ∃ e ∈ (generateChecklistTrace preferences survey weather catalog babyAgeMonths rand).trace,
      e.item.task = "Having a bath" ∧
      e.item.suggestedTime = some "6:00 PM" ∧
      e.interval = some ⟨1080, 1110⟩ ∧
      (⟨1080, 1110⟩ : Slot) ∈
        (generateChecklistTrace preferences survey weather catalog babyAgeMonths rand).scheduled := by
  obtain ⟨i, hi⟩ := mem_enumFrom_of_mem 0 hmem
  have hact : recurringActionFor (appointmentsOf survey) (i, "Having a bath") ∈
      generateActions preferences survey weather catalog babyAgeMonths rand := by
    simp only [generateActions, recurringActions]
    refine List.mem_append.mpr (Or.inl (List.mem_append.mpr (Or.inr ?_)))
    exact List.mem_map.mpr ⟨(i, "Having a bath"), hi, rfl⟩
  rw [recurringActionFor_bath (appointmentsOf survey) hnf i] at hact
  have hrun := runActions_emit_mem
    (generateActions preferences survey weather catalog babyAgeMonths rand) ⟨[], []⟩ _ _ _ _ hact
  exact ⟨_, hrun.1, rfl, rfl, rfl, hrun.2 ⟨1080, 1110⟩ rfl⟩

/-- C5 witness: the bath preference of prefsBath with an empty survey. -/
theorem c5_bath_exemption_witness :
    ("Having a bath" ∈ prefsBath.recurringTasks) ∧
    ∃ e ∈ (generateChecklistTrace prefsBath surveyEmpty none [] 6 rand0).trace,
      e.item.task = "Having a bath" ∧
      e.item.suggestedTime = some "6:00 PM" ∧
      e.interval = some ⟨1080, 1110⟩ ∧
      (⟨1080, 1110⟩ : Slot) ∈
        (generateChecklistTrace prefsBath surveyEmpty none [] 6 rand0).scheduled :=
  ⟨by decide, c5_bath_exemption prefsBath surveyEmpty none [] 6 rand0 (by decide) (by decide)⟩
